import Mathlib

/-!
Verification of the SCQCS Verified Build Witness (VBW) engine against its
design specification.

The development shallowly embeds the Rust sources of `tools/scqcs`:

* `vbw/canonical.rs` — canonical (sorted-key, compact) JSON serialization,
* `sign.rs`          — the Ed25519 wrapper (base64 framing, length checks),
* `vbw/model.rs`     — the manifest / policy / environment data model,
* `vbw/build.rs`     — enforcement computation and manifest assembly,
* `vbw/verify.rs`    — the fail-closed bundle verification pipeline,
* `main.rs`          — the co-signing (`attest`) filename logic and exit codes.

Pure Rust functions become Lean functions; filesystem and process effects are
abstracted as explicit oracle records passed to the embedded functions, so
every definition is executable and every concrete run can be evaluated by
`decide`.  Machine integers in the sources are either `u64` sizes (embedded as
`Nat`; no arithmetic is performed on them) or absent.  External crates
(`ed25519_dalek`, `serde_json` parsing, SHA-256) are modelled as abstract
function parameters: the theorems below are about the repository's own logic
layered on top of them.
-/

deriving instance DecidableEq for Except

namespace SCQCS

/-! ## Character-list string utilities

Core `String` functions such as `String.trim` and `String.splitOn` are
implemented on `Substring` with well-founded recursion and do not reduce
inside the kernel, so the embedding re-implements the handful of string
operations the Rust code uses as structural recursion over `List Char`.
`String.data` is UTF-8 decoded; comparing `Char` scalar values agrees with
comparing raw UTF-8 bytes, which is the order Rust's `str` comparison uses. -/

/-- Lexicographic (byte-wise) strict order on character lists, mirroring
Rust's `Ord for String`. -/
def lexLt : List Char → List Char → Bool
  | [], [] => false
  | [], _ :: _ => true
  | _ :: _, [] => false
  | a :: as, b :: bs => if a < b then true else if a = b then lexLt as bs else false

/-- Lexicographic (byte-wise) reflexive order on character lists. -/
def lexLe : List Char → List Char → Bool
  | [], _ => true
  | _ :: _, [] => false
  | a :: as, b :: bs => if a < b then true else if a = b then lexLe as bs else false

theorem lexLe_total : ∀ as bs, lexLe as bs = true ∨ lexLe bs as = true := by
  intro as
  induction as with
  | nil => intro bs; left; rfl
  | cons a as ih =>
    intro bs
    cases bs with
    | nil => right; rfl
    | cons b bs =>
      simp only [lexLe]
      rcases lt_trichotomy a b with h | h | h
      · left; simp [h]
      · subst h
        rcases ih bs with h2 | h2
        · left; simp [h2, lt_irrefl]
        · right; simp [h2, lt_irrefl]
      · right
        simp [h, not_lt_of_gt h, (ne_of_gt h)]

theorem lexLe_antisymm : ∀ as bs, lexLe as bs = true → lexLe bs as = true → as = bs := by
  intro as
  induction as with
  | nil =>
    intro bs h1 h2
    cases bs with
    | nil => rfl
    | cons b bs => simp [lexLe] at h2
  | cons a as ih =>
    intro bs h1 h2
    cases bs with
    | nil => simp [lexLe] at h1
    | cons b bs =>
      simp only [lexLe] at h1 h2
      rcases lt_trichotomy a b with h | h | h
      · simp [h, not_lt_of_gt h, ne_of_gt h, (ne_of_lt h).symm] at h2
      · subst h
        simp only [lt_irrefl, if_false, if_pos rfl] at h1 h2
        rw [ih bs h1 h2]
      · simp [h, not_lt_of_gt h, ne_of_gt h, (ne_of_lt h).symm] at h1

theorem lexLe_refl (as : List Char) : lexLe as as = true := by
  induction as with
  | nil => rfl
  | cons a as ih => simp [lexLe, ih, lt_irrefl]

theorem lexLe_trans : ∀ as bs cs, lexLe as bs = true → lexLe bs cs = true →
    lexLe as cs = true := by
  intro as
  induction as with
  | nil => intro bs cs h1 h2; rfl
  | cons a as ih =>
    intro bs cs h1 h2
    cases bs with
    | nil => simp [lexLe] at h1
    | cons b bs =>
      cases cs with
      | nil => simp [lexLe] at h2
      | cons c cs =>
        simp only [lexLe] at h1 h2 ⊢
        rcases lt_trichotomy a b with hab | hab | hab
        · rcases lt_trichotomy b c with hbc | hbc | hbc
          · simp [lt_trans hab hbc]
          · subst hbc; simp [hab]
          · simp [hbc, not_lt_of_gt hbc, ne_of_gt hbc] at h2
        · subst hab
          rcases lt_trichotomy a c with hac | hac | hac
          · simp [hac]
          · subst hac
            simp only [lt_irrefl, if_false, if_pos rfl] at h1 h2 ⊢
            exact ih bs cs h1 h2
          · simp [hac, not_lt_of_gt hac, ne_of_gt hac] at h2
        · simp [hab, not_lt_of_gt hab, ne_of_gt hab] at h1

/-- Key comparison used when sorting JSON object entries, mirroring
`keys.sort()` on `Vec<&String>` in `canonical.rs`. -/
def keyLe {β : Type} (p q : String × β) : Bool := lexLe p.1.data q.1.data

/-- Insert one key/value pair into a key-sorted list (insertion sort step). -/
def insertPair {β : Type} (p : String × β) : List (String × β) → List (String × β)
  | [] => [p]
  | q :: rest => if keyLe p q then p :: q :: rest else q :: insertPair p rest

/-- Sort a list of key/value pairs by key, byte-lexicographically.  This is
the extensional content of `keys.sort()` in `write_canonical`. -/
def sortPairs {β : Type} : List (String × β) → List (String × β)
  | [] => []
  | p :: rest => insertPair p (sortPairs rest)

theorem insertPair_perm {β : Type} (p : String × β) (l : List (String × β)) :
    (insertPair p l).Perm (p :: l) := by
  induction l with
  | nil => exact List.Perm.refl _
  | cons q rest ih =>
    simp only [insertPair]
    split
    · exact List.Perm.refl _
    · exact List.Perm.trans (List.Perm.cons q ih) (List.Perm.swap p q rest)

theorem sortPairs_perm {β : Type} (l : List (String × β)) : (sortPairs l).Perm l := by
  induction l with
  | nil => exact List.Perm.refl _
  | cons p rest ih =>
    exact List.Perm.trans (insertPair_perm p (sortPairs rest)) (List.Perm.cons p ih)

/-- Pairwise key-sortedness of an entry list. -/
def KeySorted {β : Type} (l : List (String × β)) : Prop :=
  List.Pairwise (fun p q => keyLe p q = true) l

theorem insertPair_keySorted {β : Type} (p : String × β) (l : List (String × β))
    (h : KeySorted l) : KeySorted (insertPair p l) := by
  induction l with
  | nil => exact List.pairwise_cons.mpr ⟨by simp, List.Pairwise.nil⟩
  | cons q rest ih =>
    simp only [insertPair]
    rcases List.pairwise_cons.mp h with ⟨hq, hrest⟩
    by_cases hle : keyLe p q = true
    · rw [if_pos hle]
      refine List.pairwise_cons.mpr ⟨?_, h⟩
      intro r hr
      rcases List.mem_cons.mp hr with heq | hr
      · subst heq; exact hle
      · exact lexLe_trans _ _ _ hle (hq r hr)
    · rw [if_neg hle]
      have hqp : keyLe q p = true := by
        rcases lexLe_total p.1.data q.1.data with h1 | h1
        · exact absurd h1 hle
        · exact h1
      refine List.pairwise_cons.mpr ⟨?_, ih hrest⟩
      intro r hr
      have : r ∈ p :: rest := (insertPair_perm p rest).mem_iff.mp hr
      rcases List.mem_cons.mp this with heq | hr2
      · subst heq; exact hqp
      · exact hq r hr2

theorem sortPairs_keySorted {β : Type} (l : List (String × β)) : KeySorted (sortPairs l) := by
  induction l with
  | nil => exact List.Pairwise.nil
  | cons p rest ih => exact insertPair_keySorted p _ ih

theorem string_eq_of_data_eq {s t : String} (h : s.data = t.data) : s = t := by
  cases s; cases t; exact congrArg String.mk h

theorem sortPairs_eq_of_perm {β : Type} (l₁ l₂ : List (String × β))
    (hperm : l₁.Perm l₂) (hnd : (l₁.map Prod.fst).Nodup) :
    sortPairs l₁ = sortPairs l₂ := by
  have hnd₂ : (l₂.map Prod.fst).Nodup := ((hperm.map Prod.fst).nodup_iff).mp hnd
  have hp : (sortPairs l₁).Perm (sortPairs l₂) :=
    ((sortPairs_perm l₁).trans hperm).trans (sortPairs_perm l₂).symm
  have key : ∀ (l : List (String × β)), (l.map Prod.fst).Nodup →
      List.Pairwise (fun p q : String × β => keyLe p q = true ∧ p.1 ≠ q.1) (sortPairs l) := by
    intro l hl
    have hs := sortPairs_keySorted l
    have hnds : ((sortPairs l).map Prod.fst).Nodup :=
      (((sortPairs_perm l).map Prod.fst).nodup_iff).mpr hl
    have hne : List.Pairwise (fun p q : String × β => p.1 ≠ q.1) (sortPairs l) :=
      List.pairwise_map.mp hnds
    exact hs.and hne
  haveI : IsAntisymm (String × β) (fun p q => keyLe p q = true ∧ p.1 ≠ q.1) := by
    constructor
    intro a b h1 h2
    have hdata : a.1.data = b.1.data := lexLe_antisymm _ _ h1.1 h2.1
    exact absurd (string_eq_of_data_eq hdata) h1.2
  exact List.eq_of_perm_of_sorted hp (key l₁ hnd) (key l₂ hnd₂)

/-! ## JSON values and the canonical encoder (`vbw/canonical.rs`)

`serde_json::Value` is embedded as `Json`.  The manifest contains only
strings, booleans and (through the open `ext` field) integers, so numbers are
embedded as `Int`; this matches the comment in `canonical.rs` that no
floating-point normalization is needed.  Objects are entry lists; a
`serde_json::Map` is a `BTreeMap`, so real values never carry duplicate keys —
the predicate `goodJson` captures that invariant where proofs need it. -/

inductive Json where
  | null : Json
  | bool (b : Bool) : Json
  | num (n : Int) : Json
  | str (s : String) : Json
  | arr (elems : List Json) : Json
  | obj (fields : List (String × Json)) : Json

/-- Lowercase hexadecimal digit, as used by `serde_json` in `\u00XX` escapes. -/
def hexDigit (n : Nat) : Char :=
  if n < 10 then Char.ofNat (48 + n) else Char.ofNat (87 + n)

/-- Escape a single character the way `serde_json::to_string` escapes string
contents: quote and backslash get a backslash escape, the control characters
BS/TAB/LF/FF/CR get their short forms, all other control characters get
`\u00XX`, and everything else is emitted verbatim. -/
def escapeChar (c : Char) : List Char :=
  if c = '"' then ['\\', '"']
  else if c = '\\' then ['\\', '\\']
  else if c.toNat = 8 then ['\\', 'b']
  else if c.toNat = 9 then ['\\', 't']
  else if c.toNat = 10 then ['\\', 'n']
  else if c.toNat = 12 then ['\\', 'f']
  else if c.toNat = 13 then ['\\', 'r']
  else if c.toNat < 32 then ['\\', 'u', '0', '0', hexDigit (c.toNat / 16), hexDigit (c.toNat % 16)]
  else [c]

/-- Render a string as a JSON string literal (standard JSON escaping), the
`serde_json::to_string(s)` call in `write_canonical`. -/
def quoteJson (s : String) : String :=
  ⟨'"' :: (s.data.map escapeChar).flatten ++ ['"']⟩

/-- Decimal digits of a natural number; fuel-based so that it reduces in the
kernel (the fuel `n + 1` always suffices since `n / 10 < n` for `n ≥ 10`). -/
def natDigitsAux : Nat → Nat → List Char
  | 0, _ => []
  | fuel + 1, n =>
    if n < 10 then [Char.ofNat (48 + n)]
    else natDigitsAux fuel (n / 10) ++ [Char.ofNat (48 + n % 10)]

/-- Canonical decimal rendering of an integer — the textual form produced by
`serde_json` for integer `Number`s (`n.to_string()` in `write_canonical`). -/
def intDecimal : Int → String
  | Int.ofNat m => ⟨natDigitsAux (m + 1) m⟩
  | Int.negSucc m => ⟨'-' :: natDigitsAux (m + 2) (m + 1)⟩

/-- Join rendered pieces with commas, as the `if i > 0 { out.push(',') }`
loops in `write_canonical` do. -/
def commaSep : List String → String
  | [] => ""
  | [s] => s
  | s :: rest => s ++ "," ++ commaSep rest

mutual

/-- Canonical JSON rendering of a value: the Lean embedding of
`write_canonical` in `canonical.rs`.  Object entries are rendered and then
sorted by raw key bytes; since rendering a value does not depend on its
position and `keys.sort()` in the source is a stable byte-lexicographic sort
over a `BTreeMap`'s keys, rendering values before sorting produces the exact
same output as the source's sort-keys-then-render loop. -/
def writeCanonical : Json → String
  | .null => "null"
  | .bool b => if b then "true" else "false"
  | .num n => intDecimal n
  | .str s => quoteJson s
  | .arr elems => "[" ++ commaSep (writeList elems) ++ "]"
  | .obj fields =>
      "\x7b" ++ commaSep ((sortPairs (writeFields fields)).map
        (fun q => quoteJson q.1 ++ ":" ++ q.2)) ++ "\x7d"

/-- Render each array element. -/
def writeList : List Json → List String
  | [] => []
  | v :: rest => writeCanonical v :: writeList rest

/-- Render the value of each object entry, keeping the key. -/
def writeFields : List (String × Json) → List (String × String)
  | [] => []
  | (k, v) :: rest => (k, writeCanonical v) :: writeFields rest

end

/-- Canonical JSON of a `serde_json::Value` — `canonical_json` in the source. -/
def canonicalJson (v : Json) : String := writeCanonical v

/-- Boolean key-distinctness check. -/
def nodupKeys : List String → Bool
  | [] => true
  | k :: rest => !(rest.contains k) && nodupKeys rest

theorem nodupKeys_iff (l : List String) : nodupKeys l = true ↔ l.Nodup := by
  induction l with
  | nil => simp [nodupKeys]
  | cons k rest ih =>
    simp only [nodupKeys, Bool.and_eq_true, Bool.not_eq_true', List.nodup_cons, ih]
    constructor
    · rintro ⟨h1, h2⟩
      refine ⟨fun hm => ?_, h2⟩
      rw [show rest.contains k = rest.elem k from rfl, List.elem_iff.mpr hm] at h1
      cases h1
    · rintro ⟨h1, h2⟩
      refine ⟨?_, h2⟩
      by_cases hc : rest.contains k = true
      · exact absurd (List.elem_iff.mp hc) h1
      · simpa using hc


mutual

/-- Well-formedness: every object in the value has pairwise distinct keys.
True of every value obtained from `serde_json` (objects are `BTreeMap`s). -/
def goodJson : Json → Bool
  | .null => true
  | .bool _ => true
  | .num _ => true
  | .str _ => true
  | .arr elems => goodList elems
  | .obj fields => nodupKeys (fields.map Prod.fst) && goodFields fields

/-- Well-formedness of every element of an array. -/
def goodList : List Json → Bool
  | [] => true
  | v :: rest => goodJson v && goodList rest

/-- Well-formedness of every value of an object. -/
def goodFields : List (String × Json) → Bool
  | [] => true
  | (_, v) :: rest => goodJson v && goodFields rest

end

/-! ## Structural equality up to object-entry order

Pretty-printing a `serde_json::Value` and re-parsing the resulting text can
change exactly one thing about the value: the order in which object entries
are stored, at any nesting level.  (`serde_json` maps are `BTreeMap`s, so in
practice even the order is preserved; the relation below conservatively allows
any reordering.)  `SameData v w` therefore models "`w` is a value that
re-parsing a pretty-printed rendering of `v` could produce". -/

mutual

inductive SameData : Json → Json → Prop where
  | null : SameData .null .null
  | bool (b : Bool) : SameData (.bool b) (.bool b)
  | num (n : Int) : SameData (.num n) (.num n)
  | str (s : String) : SameData (.str s) (.str s)
  | arr {xs ys : List Json} : SameDataList xs ys → SameData (.arr xs) (.arr ys)
  | obj {fs l fsq : List (String × Json)} :
      SameDataFields fs l → l.Perm fsq → SameData (.obj fs) (.obj fsq)

inductive SameDataList : List Json → List Json → Prop where
  | nil : SameDataList [] []
  | cons {x y : Json} {xs ys : List Json} :
      SameData x y → SameDataList xs ys → SameDataList (x :: xs) (y :: ys)

inductive SameDataFields : List (String × Json) → List (String × Json) → Prop where
  | nil : SameDataFields [] []
  | cons {k : String} {v w : Json} {fs gs : List (String × Json)} :
      SameData v w → SameDataFields fs gs → SameDataFields ((k, v) :: fs) ((k, w) :: gs)

end

mutual

theorem sameData_refl : (v : Json) → SameData v v
  | .null => .null
  | .bool b => .bool b
  | .num n => .num n
  | .str s => .str s
  | .arr xs => .arr (sameDataList_refl xs)
  | .obj fs => .obj (sameDataFields_refl fs) (List.Perm.refl fs)

theorem sameDataList_refl : (xs : List Json) → SameDataList xs xs
  | [] => .nil
  | x :: xs => .cons (sameData_refl x) (sameDataList_refl xs)

theorem sameDataFields_refl : (fs : List (String × Json)) → SameDataFields fs fs
  | [] => .nil
  | (_, v) :: fs => .cons (sameData_refl v) (sameDataFields_refl fs)

end

theorem sameDataFields_keys : {fs gs : List (String × Json)} → SameDataFields fs gs →
    fs.map Prod.fst = gs.map Prod.fst
  | _, _, .nil => rfl
  | _, _, .cons _ h => by simpa using sameDataFields_keys h

theorem writeFields_eq_map (fs : List (String × Json)) :
    writeFields fs = fs.map (fun p => (p.1, writeCanonical p.2)) := by
  induction fs with
  | nil => rfl
  | cons p rest ih => cases p; simp [writeFields, ih]

mutual

theorem sameData_write : {v w : Json} → SameData v w → goodJson v = true →
    writeCanonical v = writeCanonical w
  | _, _, .null, _ => rfl
  | _, _, .bool _, _ => rfl
  | _, _, .num _, _ => rfl
  | _, _, .str _, _ => rfl
  | _, _, @SameData.arr xs ys hxs, hg => by
      simp only [writeCanonical]
      rw [sameDataList_write hxs (by simpa [goodJson] using hg)]
  | _, _, @SameData.obj fs l fsq hf hperm, hg => by
      simp only [writeCanonical]
      have hgood : nodupKeys (fs.map Prod.fst) = true ∧ goodFields fs = true := by
        simpa [goodJson, Bool.and_eq_true] using hg
      have h1 : writeFields fs = writeFields l := sameDataFields_write hf hgood.2
      have hnd : ((l.map fun p : String × Json => (p.1, writeCanonical p.2)).map Prod.fst).Nodup := by
        rw [List.map_map]
        have heq : (Prod.fst ∘ fun p : String × Json => (p.1, writeCanonical p.2)) = Prod.fst := by
          funext p; rfl
        rw [heq, ← sameDataFields_keys hf]
        exact (nodupKeys_iff _).mp hgood.1
      have h2 : sortPairs (writeFields l) = sortPairs (writeFields fsq) := by
        rw [writeFields_eq_map, writeFields_eq_map]
        exact sortPairs_eq_of_perm _ _ (hperm.map _) hnd
      rw [h1, h2]

theorem sameDataList_write : {xs ys : List Json} → SameDataList xs ys → goodList xs = true →
    writeList xs = writeList ys
  | _, _, .nil, _ => rfl
  | _, _, @SameDataList.cons x y xs ys hx hxs, hg => by
      have h2 : goodJson x = true ∧ goodList xs = true := by
        simpa [goodList, Bool.and_eq_true] using hg
      simp only [writeList]
      rw [sameData_write hx h2.1, sameDataList_write hxs h2.2]

theorem sameDataFields_write : {fs gs : List (String × Json)} → SameDataFields fs gs →
    goodFields fs = true → writeFields fs = writeFields gs
  | _, _, .nil, _ => rfl
  | _, _, @SameDataFields.cons k v w fs gs hv hfs, hg => by
      have h2 : goodJson v = true ∧ goodFields fs = true := by
        simpa [goodFields, Bool.and_eq_true] using hg
      simp only [writeFields]
      rw [sameData_write hv h2.1, sameDataFields_write hfs h2.2]

end

/-! ## The output has sorted keys at every level and preserves array order

`sortJson` recursively sorts every object's entries by key and maps arrays
elementwise (preserving their order); `writePlain` renders a value without
any sorting.  Showing `writeCanonical v = writePlain (sortJson v)` exhibits
the canonical output as the order-faithful rendering of a structure whose
keys are sorted at every nesting level. -/

mutual

/-- Recursively sort all object entries by key; arrays keep their order. -/
def sortJson : Json → Json
  | .null => .null
  | .bool b => .bool b
  | .num n => .num n
  | .str s => .str s
  | .arr xs => .arr (sortJsonList xs)
  | .obj fs => .obj (sortPairs (sortJsonFields fs))

/-- Sort each array element recursively, in order. -/
def sortJsonList : List Json → List Json
  | [] => []
  | x :: xs => sortJson x :: sortJsonList xs

/-- Sort each object value recursively, keeping entry order. -/
def sortJsonFields : List (String × Json) → List (String × Json)
  | [] => []
  | (k, v) :: fs => (k, sortJson v) :: sortJsonFields fs

end

mutual

/-- Plain sequential JSON writer: like `writeCanonical` but objects are
rendered in the stored entry order, with no sorting. -/
def writePlain : Json → String
  | .null => "null"
  | .bool b => if b then "true" else "false"
  | .num n => intDecimal n
  | .str s => quoteJson s
  | .arr elems => "[" ++ commaSep (writePlainList elems) ++ "]"
  | .obj fields =>
      "\x7b" ++ commaSep ((writePlainFields fields).map
        (fun q => quoteJson q.1 ++ ":" ++ q.2)) ++ "\x7d"

/-- Render each array element with the plain writer. -/
def writePlainList : List Json → List String
  | [] => []
  | v :: rest => writePlain v :: writePlainList rest

/-- Render object entry values with the plain writer. -/
def writePlainFields : List (String × Json) → List (String × String)
  | [] => []
  | (k, v) :: rest => (k, writePlain v) :: writePlainFields rest

end

theorem writePlainFields_eq_map (fs : List (String × Json)) :
    writePlainFields fs = fs.map (fun p => (p.1, writePlain p.2)) := by
  induction fs with
  | nil => rfl
  | cons p rest ih => cases p; simp [writePlainFields, ih]

theorem insertPair_map_snd {β γ : Type} (g : β → γ) (p : String × β) (l : List (String × β)) :
    insertPair (p.1, g p.2) (l.map fun q => (q.1, g q.2)) =
      (insertPair p l).map fun q => (q.1, g q.2) := by
  induction l with
  | nil => rfl
  | cons q rest ih =>
    simp only [List.map, insertPair]
    by_cases hle : keyLe p q = true
    · rw [if_pos (by simpa [keyLe] using hle), if_pos hle]
      rfl
    · rw [if_neg (by simpa [keyLe] using hle), if_neg hle]
      simp [ih]

theorem sortPairs_map_snd {β γ : Type} (g : β → γ) (l : List (String × β)) :
    sortPairs (l.map fun q => (q.1, g q.2)) = (sortPairs l).map fun q => (q.1, g q.2) := by
  induction l with
  | nil => rfl
  | cons p rest ih =>
    simp only [List.map, sortPairs]
    rw [ih, ← insertPair_map_snd]

mutual

theorem writeCanonical_eq_plain_sort : (v : Json) →
    writeCanonical v = writePlain (sortJson v)
  | .null => rfl
  | .bool _ => rfl
  | .num _ => rfl
  | .str _ => rfl
  | .arr xs => by
      simp only [writeCanonical, sortJson, writePlain]
      rw [writeList_eq_plain_sort xs]
  | .obj fs => by
      simp only [writeCanonical, sortJson, writePlain]
      rw [writeFields_eq_plain_sort fs, writePlainFields_eq_map, sortPairs_map_snd,
        writePlainFields_eq_map]

theorem writeList_eq_plain_sort : (xs : List Json) →
    writeList xs = writePlainList (sortJsonList xs)
  | [] => rfl
  | x :: xs => by
      simp only [writeList, sortJsonList, writePlainList]
      rw [writeCanonical_eq_plain_sort x, writeList_eq_plain_sort xs]

theorem writeFields_eq_plain_sort : (fs : List (String × Json)) →
    writeFields fs = writePlainFields (sortJsonFields fs)
  | [] => rfl
  | (k, v) :: fs => by
      simp only [writeFields, sortJsonFields, writePlainFields]
      rw [writeCanonical_eq_plain_sort v, writeFields_eq_plain_sort fs]

end

/-- Pairwise key-order check for one object level. -/
def pairwiseKeyLeB : List (String × Json) → Bool
  | [] => true
  | p :: rest => rest.all (fun q => keyLe p q) && pairwiseKeyLeB rest

mutual

/-- Every object in the value has its entries in (byte-lexicographic) key
order, at every nesting level. -/
def sortedKeysB : Json → Bool
  | .null => true
  | .bool _ => true
  | .num _ => true
  | .str _ => true
  | .arr xs => sortedKeysListB xs
  | .obj fs => pairwiseKeyLeB fs && sortedKeysFieldsB fs

/-- Key-orderedness of every array element. -/
def sortedKeysListB : List Json → Bool
  | [] => true
  | x :: xs => sortedKeysB x && sortedKeysListB xs

/-- Key-orderedness of every object value. -/
def sortedKeysFieldsB : List (String × Json) → Bool
  | [] => true
  | (_, v) :: fs => sortedKeysB v && sortedKeysFieldsB fs

end

theorem pairwiseKeyLeB_of_keySorted {l : List (String × Json)} (h : KeySorted l) :
    pairwiseKeyLeB l = true := by
  induction l with
  | nil => rfl
  | cons p rest ih =>
    rcases List.pairwise_cons.mp h with ⟨hp, hrest⟩
    simp only [pairwiseKeyLeB, Bool.and_eq_true, List.all_eq_true]
    exact ⟨fun q hq => hp q hq, ih hrest⟩

theorem sortedKeysFieldsB_all (fs : List (String × Json)) :
    sortedKeysFieldsB fs = fs.all (fun p => sortedKeysB p.2) := by
  induction fs with
  | nil => rfl
  | cons p rest ih => cases p; simp [sortedKeysFieldsB, ih]

theorem sortedKeysFieldsB_perm {fs gs : List (String × Json)} (h : fs.Perm gs)
    (hfs : sortedKeysFieldsB fs = true) : sortedKeysFieldsB gs = true := by
  rw [sortedKeysFieldsB_all] at hfs ⊢
  rw [List.all_eq_true] at hfs ⊢
  intro p hp
  exact hfs p (h.mem_iff.mpr hp)

mutual

theorem sortJson_sortedKeys : (v : Json) → sortedKeysB (sortJson v) = true
  | .null => rfl
  | .bool _ => rfl
  | .num _ => rfl
  | .str _ => rfl
  | .arr xs => by
      simp only [sortJson, sortedKeysB]
      exact sortJsonList_sortedKeys xs
  | .obj fs => by
      simp only [sortJson, sortedKeysB, Bool.and_eq_true]
      constructor
      · exact pairwiseKeyLeB_of_keySorted (sortPairs_keySorted _)
      · exact sortedKeysFieldsB_perm (sortPairs_perm _).symm (sortJsonFields_sortedKeys fs)

theorem sortJsonList_sortedKeys : (xs : List Json) → sortedKeysListB (sortJsonList xs) = true
  | [] => rfl
  | x :: xs => by
      simp only [sortJsonList, sortedKeysListB, Bool.and_eq_true]
      exact ⟨sortJson_sortedKeys x, sortJsonList_sortedKeys xs⟩

theorem sortJsonFields_sortedKeys : (fs : List (String × Json)) →
    sortedKeysFieldsB (sortJsonFields fs) = true
  | [] => rfl
  | (k, v) :: fs => by
      simp only [sortJsonFields, sortedKeysFieldsB, Bool.and_eq_true]
      exact ⟨sortJson_sortedKeys v, sortJsonFields_sortedKeys fs⟩

end

/-! ## No separator whitespace is emitted

The only whitespace character the encoder can ever copy into its output
verbatim is a space inside a string payload (TAB/CR/LF are escaped to
`\t`/`\r`/`\n`).  For values whose strings contain no space character, the
entire canonical output is whitespace-free — i.e. the encoder itself never
emits separator whitespace. -/

/-- The rendered text contains no whitespace character at all. -/
def wsFree (s : String) : Bool := s.data.all (fun c => !c.isWhitespace)

/-- The string payload contains no literal space character. -/
def noSpaceStr (s : String) : Bool := s.data.all (fun c => !(c = ' '))

mutual

/-- No string or key anywhere in the value contains a literal space. -/
def noSpaceJson : Json → Bool
  | .null => true
  | .bool _ => true
  | .num _ => true
  | .str s => noSpaceStr s
  | .arr xs => noSpaceList xs
  | .obj fs => noSpaceFields fs

/-- Space-freedom of every array element. -/
def noSpaceList : List Json → Bool
  | [] => true
  | x :: xs => noSpaceJson x && noSpaceList xs

/-- Space-freedom of every object key and value. -/
def noSpaceFields : List (String × Json) → Bool
  | [] => true
  | (k, v) :: fs => noSpaceStr k && noSpaceJson v && noSpaceFields fs

end

theorem wsFree_append (a b : String) : wsFree (a ++ b) = (wsFree a && wsFree b) := by
  simp [wsFree, String.data_append, List.all_append]

theorem hexDigit_not_ws {n : Nat} (h : n < 16) : (hexDigit n).isWhitespace = false := by
  interval_cases n <;> decide

theorem char_not_ws_of_big {c : Char} (hs : ¬ c = ' ') (hb : ¬ c.toNat < 32) :
    c.isWhitespace = false := by
  by_contra h
  rw [Bool.not_eq_false] at h
  simp only [Char.isWhitespace, Bool.or_eq_true, decide_eq_true_eq] at h
  rcases h with ((h | h) | h) | h
  · exact hs h
  · subst h; exact hb (by decide)
  · subst h; exact hb (by decide)
  · subst h; exact hb (by decide)

theorem escapeChar_not_ws {c : Char} (hc : ¬ c = ' ') :
    ∀ d ∈ escapeChar c, d.isWhitespace = false := by
  intro d hd
  unfold escapeChar at hd
  by_cases h1 : c = '"'
  · rw [if_pos h1] at hd; fin_cases hd <;> decide
  · rw [if_neg h1] at hd
    by_cases h2 : c = '\\'
    · rw [if_pos h2] at hd; fin_cases hd <;> decide
    · rw [if_neg h2] at hd
      by_cases h3 : c.toNat = 8
      · rw [if_pos h3] at hd; fin_cases hd <;> decide
      · rw [if_neg h3] at hd
        by_cases h4 : c.toNat = 9
        · rw [if_pos h4] at hd; fin_cases hd <;> decide
        · rw [if_neg h4] at hd
          by_cases h5 : c.toNat = 10
          · rw [if_pos h5] at hd; fin_cases hd <;> decide
          · rw [if_neg h5] at hd
            by_cases h6 : c.toNat = 12
            · rw [if_pos h6] at hd; fin_cases hd <;> decide
            · rw [if_neg h6] at hd
              by_cases h7 : c.toNat = 13
              · rw [if_pos h7] at hd; fin_cases hd <;> decide
              · rw [if_neg h7] at hd
                by_cases h8 : c.toNat < 32
                · rw [if_pos h8] at hd
                  simp only [List.mem_cons, List.not_mem_nil, or_false] at hd
                  rcases hd with rfl | rfl | rfl | rfl | rfl | rfl
                  · decide
                  · decide
                  · decide
                  · decide
                  · exact hexDigit_not_ws (by omega)
                  · exact hexDigit_not_ws (by omega)
                · rw [if_neg h8] at hd
                  rw [List.mem_singleton] at hd
                  subst hd
                  exact char_not_ws_of_big hc h8

theorem quoteJson_wsFree {s : String} (h : noSpaceStr s = true) :
    wsFree (quoteJson s) = true := by
  simp only [wsFree, List.all_eq_true]
  intro c hc
  change c ∈ '"' :: ((s.data.map escapeChar).flatten ++ ['"']) at hc
  simp only [List.mem_cons, List.mem_append, List.not_mem_nil, or_false,
    List.mem_flatten] at hc
  rcases hc with rfl | ⟨l, hl, hcl⟩ | rfl
  · decide
  · rw [List.mem_map] at hl
    rcases hl with ⟨a, ha, rfl⟩
    have hna : ¬ a = ' ' := by
      simp only [noSpaceStr, List.all_eq_true] at h
      simpa using h a ha
    simp [escapeChar_not_ws hna c hcl]
  · decide

theorem digitChar_not_ws {k : Nat} (h : k < 10) :
    (Char.ofNat (48 + k)).isWhitespace = false := by
  interval_cases k <;> decide

theorem natDigitsAux_not_ws : ∀ (fuel n : Nat), ∀ c ∈ natDigitsAux fuel n,
    c.isWhitespace = false := by
  intro fuel
  induction fuel with
  | zero => intro n c hc; cases hc
  | succ fuel ih =>
    intro n c hc
    simp only [natDigitsAux] at hc
    by_cases h : n < 10
    · rw [if_pos h] at hc
      rw [List.mem_singleton] at hc
      subst hc
      exact digitChar_not_ws h
    · rw [if_neg h] at hc
      rcases List.mem_append.mp hc with hc | hc
      · exact ih _ c hc
      · rw [List.mem_singleton] at hc
        subst hc
        exact digitChar_not_ws (Nat.mod_lt _ (by omega))

theorem intDecimal_wsFree (n : Int) : wsFree (intDecimal n) = true := by
  cases n with
  | ofNat m =>
    simp only [intDecimal, wsFree, List.all_eq_true]
    intro c hc
    simp [natDigitsAux_not_ws _ _ c hc]
  | negSucc m =>
    simp only [intDecimal, wsFree, List.all_eq_true]
    intro c hc
    rcases List.mem_cons.mp hc with hq | hc
    · subst hq; decide
    · simp [natDigitsAux_not_ws _ _ c hc]

theorem commaSep_wsFree : ∀ (parts : List String), (∀ s ∈ parts, wsFree s = true) →
    wsFree (commaSep parts) = true := by
  intro parts
  induction parts with
  | nil => intro _; rfl
  | cons s rest ih =>
    intro h
    cases rest with
    | nil => exact h s (List.mem_cons_self _ _)
    | cons t rest2 =>
      show wsFree (s ++ "," ++ commaSep (t :: rest2)) = true
      rw [wsFree_append, wsFree_append]
      simp only [Bool.and_eq_true]
      refine ⟨⟨h s (List.mem_cons_self _ _), by decide⟩, ?_⟩
      exact ih (fun u hu => h u (List.mem_cons_of_mem _ hu))

mutual

theorem writeCanonical_wsFree : (v : Json) → noSpaceJson v = true →
    wsFree (writeCanonical v) = true
  | .null, _ => by decide
  | .bool b, _ => by cases b <;> decide
  | .num n, _ => intDecimal_wsFree n
  | .str s, h => quoteJson_wsFree (by simpa [noSpaceJson] using h)
  | .arr xs, h => by
      simp only [writeCanonical]
      rw [wsFree_append, wsFree_append]
      simp only [Bool.and_eq_true]
      refine ⟨⟨by decide, ?_⟩, by decide⟩
      exact commaSep_wsFree _ (writeList_wsFree xs (by simpa [noSpaceJson] using h))
  | .obj fs, h => by
      simp only [writeCanonical]
      rw [wsFree_append, wsFree_append]
      simp only [Bool.and_eq_true]
      refine ⟨⟨by decide, ?_⟩, by decide⟩
      refine commaSep_wsFree _ ?_
      intro s hs
      rw [List.mem_map] at hs
      rcases hs with ⟨q, hq, rfl⟩
      have hq2 : q ∈ writeFields fs := (sortPairs_perm _).mem_iff.mp hq
      have hkv := writeFields_wsFree fs (by simpa [noSpaceJson] using h) q hq2
      rw [wsFree_append, wsFree_append]
      simp only [Bool.and_eq_true]
      exact ⟨⟨quoteJson_wsFree hkv.1, by decide⟩, hkv.2⟩

theorem writeList_wsFree : (xs : List Json) → noSpaceList xs = true →
    ∀ s ∈ writeList xs, wsFree s = true
  | [], _ => by intro s hs; cases hs
  | x :: xs, h => by
      have h2 : noSpaceJson x = true ∧ noSpaceList xs = true := by
        simpa [noSpaceList, Bool.and_eq_true] using h
      intro s hs
      rcases List.mem_cons.mp hs with rfl | hs
      · exact writeCanonical_wsFree x h2.1
      · exact writeList_wsFree xs h2.2 s hs

theorem writeFields_wsFree : (fs : List (String × Json)) → noSpaceFields fs = true →
    ∀ q ∈ writeFields fs, noSpaceStr q.1 = true ∧ wsFree q.2 = true
  | [], _ => by intro q hq; cases hq
  | (k, v) :: fs, h => by
      have h2 : noSpaceStr k = true ∧ noSpaceJson v = true ∧ noSpaceFields fs = true := by
        simpa [noSpaceFields, Bool.and_eq_true, and_assoc] using h
      intro q hq
      rcases List.mem_cons.mp hq with rfl | hq
      · exact ⟨h2.1, writeCanonical_wsFree v h2.2.1⟩
      · exact writeFields_wsFree fs h2.2.2 q hq

end

/-! ## The VBW data model (`vbw/model.rs`)

Each struct mirrors its serde counterpart field-for-field.  `Option` fields
carry `#[serde(skip_serializing_if = "Option::is_none")]` in the source, so
`manifestToJson` omits them when absent. -/

structure Project where
  name : String
  repo_url : Option String
  homepage : Option String
deriving DecidableEq

structure GitRef where
  commit : String
  branch : Option String
  tag : Option String
  dirty : Bool
deriving DecidableEq

structure BuilderIdentity where
  key_id : String
  public_key_ed25519 : String
  issuer : Option String
deriving DecidableEq

structure PolicyRef where
  path : String
  hash_sha256 : String
deriving DecidableEq

/-- The three reproducibility modes of the VBW spec.  Serde serializes the
unit variants as their names. -/
inductive ReproducibilityMode where
  | A_DETERMINISTIC
  | B_LOCKED_NETWORK
  | C_WITNESSED_ND
deriving DecidableEq

structure Enforcement where
  mode_requested : ReproducibilityMode
  mode_enforced : Bool
  network_blocked : Bool
  source_date_epoch_set : Bool
  notes : Option String
deriving DecidableEq

structure Manifest where
  vbw_version : String
  build_id : String
  created_at : String
  project : Project
  git : GitRef
  source_commit_tree_hash : String
  source_worktree_hash : Option String
  materials_lock_hash : String
  environment_hash : String
  outputs_hash : String
  builder_identity : BuilderIdentity
  policy_ref : PolicyRef
  enforcement : Option Enforcement
  notes : Option String
  ext : Option Json

structure NetworkPolicy where
  allowed : Bool
  allowlist : Option (List String)
deriving DecidableEq

structure Reproducibility where
  mode : ReproducibilityMode
  source_date_epoch : Option Int
  network : Option NetworkPolicy
deriving DecidableEq

structure OsInfo where
  name : String
  version : Option String
  kernel : Option String
  arch : Option String
deriving DecidableEq

structure ContainerInfo where
  container_type : String
  image : Option String
  image_digest : String
deriving DecidableEq

structure ToolInfo where
  name : String
  version : String
  path : Option String
  invocation : Option String
deriving DecidableEq

structure Environment where
  os : OsInfo
  container : Option ContainerInfo
  tools : List ToolInfo
  env : Option Json
  locale : Option String
  timezone : Option String
  reproducibility : Reproducibility

structure Artifact where
  path : String
  sha256 : String
  size_bytes : Nat
  mime : Option String
  build_id : Option String
  notes : Option String
deriving DecidableEq

structure Outputs where
  artifacts : List Artifact
deriving DecidableEq

structure NetworkRequirement where
  allowed : Bool
  allowlist : Option (List String)
deriving DecidableEq

structure ReproducibilityRequirement where
  mode : ReproducibilityMode
  require_source_date_epoch : Option Bool
deriving DecidableEq

structure MaterialsRequirement where
  require_lockfile_hashes : Bool
  require_vendor_archive_and_tree : Option Bool
deriving DecidableEq

structure TrustedCosignerKey where
  key_id : String
  public_key_ed25519 : String
deriving DecidableEq

structure SigningRequirement where
  require_maintainer_cosign_for_release : Option Bool
  trusted_cosigner_keys : Option (List TrustedCosignerKey)
deriving DecidableEq

structure PolicyRequirements where
  network : NetworkRequirement
  reproducibility : ReproducibilityRequirement
  materials : MaterialsRequirement
  signing : Option SigningRequirement
deriving DecidableEq

structure Policy where
  policy_version : String
  requirements : PolicyRequirements
deriving DecidableEq

structure LockfileEntry where
  path : String
  sha256 : String
deriving DecidableEq

structure MaterialEntry where
  name : String
  kind : String
  source : Option String
  sha256 : String
  archive_sha256 : Option String
  extracted_tree_hash : Option String
deriving DecidableEq

structure MaterialsLock where
  lockfiles : List LockfileEntry
  materials : List MaterialEntry
deriving DecidableEq

/-! ## Serde serialization of the manifest

`serde_json::to_value(manifest)` produces an object per struct, fields in
declaration order, with `None` optionals omitted.  (`canonical_json` sorts
keys afterwards, so the declaration order never shows in the output.) -/

/-- Emit an optional string field, omitting it when `None`
(`skip_serializing_if = "Option::is_none"`). -/
def optStrField (k : String) : Option String → List (String × Json)
  | none => []
  | some s => [(k, .str s)]

/-- Serde rendering of a unit enum variant. -/
def modeToJson : ReproducibilityMode → Json
  | .A_DETERMINISTIC => .str "A_DETERMINISTIC"
  | .B_LOCKED_NETWORK => .str "B_LOCKED_NETWORK"
  | .C_WITNESSED_ND => .str "C_WITNESSED_ND"

/-- Debug (`{:?}`) rendering of a mode, used in findings messages. -/
def modeDebug : ReproducibilityMode → String
  | .A_DETERMINISTIC => "A_DETERMINISTIC"
  | .B_LOCKED_NETWORK => "B_LOCKED_NETWORK"
  | .C_WITNESSED_ND => "C_WITNESSED_ND"

def projectToJson (p : Project) : Json :=
  .obj ([("name", .str p.name)] ++ optStrField "repo_url" p.repo_url
    ++ optStrField "homepage" p.homepage)

def gitToJson (g : GitRef) : Json :=
  .obj ([("commit", .str g.commit)] ++ optStrField "branch" g.branch
    ++ optStrField "tag" g.tag ++ [("dirty", .bool g.dirty)])

def builderToJson (b : BuilderIdentity) : Json :=
  .obj ([("key_id", .str b.key_id), ("public_key_ed25519", .str b.public_key_ed25519)]
    ++ optStrField "issuer" b.issuer)

def policyRefToJson (p : PolicyRef) : Json :=
  .obj [("path", .str p.path), ("hash_sha256", .str p.hash_sha256)]

def enforcementToJson (e : Enforcement) : Json :=
  .obj ([("mode_requested", modeToJson e.mode_requested),
    ("mode_enforced", .bool e.mode_enforced),
    ("network_blocked", .bool e.network_blocked),
    ("source_date_epoch_set", .bool e.source_date_epoch_set)]
    ++ optStrField "notes" e.notes)

/-- The `serde_json::to_value(&manifest)` step of `canonical_manifest_bytes`. -/
def manifestToJson (m : Manifest) : Json :=
  .obj ([("vbw_version", .str m.vbw_version),
    ("build_id", .str m.build_id),
    ("created_at", .str m.created_at),
    ("project", projectToJson m.project),
    ("git", gitToJson m.git),
    ("source_commit_tree_hash", .str m.source_commit_tree_hash)]
    ++ optStrField "source_worktree_hash" m.source_worktree_hash
    ++ [("materials_lock_hash", .str m.materials_lock_hash),
      ("environment_hash", .str m.environment_hash),
      ("outputs_hash", .str m.outputs_hash),
      ("builder_identity", builderToJson m.builder_identity),
      ("policy_ref", policyRefToJson m.policy_ref)]
    ++ (match m.enforcement with
      | none => []
      | some e => [("enforcement", enforcementToJson e)])
    ++ optStrField "notes" m.notes
    ++ (match m.ext with
      | none => []
      | some j => [("ext", j)]))

/-- Canonical manifest bytes (`canonical_manifest_bytes` in `canonical.rs`).
The Rust function returns the UTF-8 bytes of the canonical JSON text; UTF-8
encoding is injective, so the text itself is used as the byte sequence. -/
def canonicalManifestBytes (m : Manifest) : String :=
  canonicalJson (manifestToJson m)

/-- C1: canonicalization is deterministic and round-trip stable.  For every
manifest `m`: (1) `canonical_manifest_bytes` returns the same bytes on
repeated calls; (2) pretty-printing and re-parsing — which can change a
`serde_json` value only by reordering object entries, modelled by `SameData` —
leaves the canonical bytes unchanged; (3) the output is exactly the
order-faithful plain rendering of the recursively key-sorted structure, whose
object keys are sorted byte-lexicographically at every nesting level while
arrays keep their element order; (4) when no string in the manifest contains
a literal space, the output contains no whitespace at all, i.e. the encoder
emits no separator whitespace of its own. -/
theorem c1_canonicalization (m : Manifest) :
    canonicalManifestBytes m = canonicalManifestBytes m
    ∧ (∀ w : Json, SameData (manifestToJson m) w → goodJson (manifestToJson m) = true →
        canonicalJson w = canonicalManifestBytes m)
    ∧ canonicalManifestBytes m = writePlain (sortJson (manifestToJson m))
    ∧ sortedKeysB (sortJson (manifestToJson m)) = true
    ∧ (noSpaceJson (manifestToJson m) = true → wsFree (canonicalManifestBytes m) = true) := by
  refine ⟨rfl, ?_, ?_, ?_, ?_⟩
  · intro w hw hg
    exact (sameData_write hw hg).symm
  · exact writeCanonical_eq_plain_sort _
  · exact sortJson_sortedKeys _
  · intro h
    exact writeCanonical_wsFree _ h

/-- A concrete manifest (mirroring the golden-vector test manifest in
`canonical.rs`) used to instantiate hypotheses of the claim theorems. -/
def exampleManifest : Manifest :=
  { vbw_version := "1.0"
    build_id := "test-build-00000000"
    created_at := "2026-01-01T00:00:00Z"
    project := { name := "golden-test", repo_url := none, homepage := none }
    git := { commit := "aabbccddee", branch := some "main", tag := none, dirty := false }
    source_commit_tree_hash := "aaaa"
    source_worktree_hash := none
    materials_lock_hash := "bbbb"
    environment_hash := "cccc"
    outputs_hash := "dddd"
    builder_identity := { key_id := "test@golden", public_key_ed25519 := "AAAA", issuer := none }
    policy_ref := { path := "vbw/policy.json", hash_sha256 := "eeee" }
    enforcement := none
    notes := none
    ext := none }

theorem c1_canonicalization_witness :
    goodJson (manifestToJson exampleManifest) = true
    ∧ noSpaceJson (manifestToJson exampleManifest) = true
    ∧ canonicalJson (manifestToJson exampleManifest) = canonicalManifestBytes exampleManifest :=
  ⟨by decide, by decide,
    (c1_canonicalization exampleManifest).2.1 (manifestToJson exampleManifest)
      (sameData_refl _) (by decide)⟩

/-! ## Base64 (the `base64` crate's STANDARD engine)

`sign.rs` frames all key and signature material as standard padded base64.
Bytes are `Nat`s below 256. -/

/-- Character of a sextet in the standard base64 alphabet. -/
def b64Char (n : Nat) : Char :=
  if n < 26 then Char.ofNat (65 + n)
  else if n < 52 then Char.ofNat (97 + (n - 26))
  else if n < 62 then Char.ofNat (48 + (n - 52))
  else if n = 62 then '+'
  else '/'

/-- Sextet value of an alphabet character; `none` for anything outside the
standard alphabet (including `=`). -/
def b64CharVal (c : Char) : Option Nat :=
  if 'A' ≤ c ∧ c ≤ 'Z' then some (c.toNat - 65)
  else if 'a' ≤ c ∧ c ≤ 'z' then some (c.toNat - 71)
  else if '0' ≤ c ∧ c ≤ '9' then some (c.toNat + 4)
  else if c = '+' then some 62
  else if c = '/' then some 63
  else none

/-- Standard padded base64 of a byte list. -/
def b64EncodeList : List Nat → List Char
  | [] => []
  | [b0] => [b64Char (b0 / 4), b64Char (b0 % 4 * 16), '=', '=']
  | [b0, b1] => [b64Char (b0 / 4), b64Char (b0 % 4 * 16 + b1 / 16), b64Char (b1 % 16 * 4), '=']
  | b0 :: b1 :: b2 :: rest =>
      b64Char (b0 / 4) :: b64Char (b0 % 4 * 16 + b1 / 16) ::
        b64Char (b1 % 16 * 4 + b2 / 64) :: b64Char (b2 % 64) :: b64EncodeList rest

/-- `B64.encode` of the `base64` crate (STANDARD, padded). -/
def b64encode (bs : List Nat) : String := ⟨b64EncodeList bs⟩

/-- Standard strict base64 decoding: length must be a multiple of four,
padding only in the final quantum, trailing bits must be zero (the STANDARD
engine's configuration). -/
def b64DecodeList : List Char → Option (List Nat)
  | [] => some []
  | c0 :: c1 :: c2 :: c3 :: rest =>
      if c2 = '=' then
        if c3 = '=' then
          if rest = [] then
            match b64CharVal c0, b64CharVal c1 with
            | some s0, some s1 => if s1 % 16 = 0 then some [s0 * 4 + s1 / 16] else none
            | _, _ => none
          else none
        else none
      else if c3 = '=' then
        if rest = [] then
          match b64CharVal c0, b64CharVal c1, b64CharVal c2 with
          | some s0, some s1, some s2 =>
              if s2 % 4 = 0 then some [s0 * 4 + s1 / 16, s1 % 16 * 16 + s2 / 4] else none
          | _, _, _ => none
        else none
      else
        match b64CharVal c0, b64CharVal c1, b64CharVal c2, b64CharVal c3,
            b64DecodeList rest with
        | some s0, some s1, some s2, some s3, some bs =>
            some ((s0 * 4 + s1 / 16) :: (s1 % 16 * 16 + s2 / 4) :: (s2 % 4 * 64 + s3) :: bs)
        | _, _, _, _, _ => none
  | _ => none

/-- `B64.decode` of the `base64` crate (STANDARD, padded). -/
def b64decode (s : String) : Option (List Nat) := b64DecodeList s.data

theorem b64CharVal_b64Char {n : Nat} (h : n < 64) : b64CharVal (b64Char n) = some n := by
  interval_cases n <;> decide

theorem b64Char_ne_pad {n : Nat} (h : n < 64) : ¬ b64Char n = '=' := by
  interval_cases n <;> decide

theorem b64_roundtrip : ∀ bs : List Nat, (∀ b ∈ bs, b < 256) →
    b64DecodeList (b64EncodeList bs) = some bs
  | [], _ => rfl
  | [b0], h => by
      have h0 : b0 < 256 := h b0 (by simp)
      have v0 := b64CharVal_b64Char (show b0 / 4 < 64 by omega)
      have v1 := b64CharVal_b64Char (show b0 % 4 * 16 < 64 by omega)
      have e1 : b0 % 4 * 16 % 16 = 0 := by omega
      simp [b64EncodeList, b64DecodeList, v0, v1, e1]
      omega
  | [b0, b1], h => by
      have h0 : b0 < 256 := h b0 (by simp)
      have h1 : b1 < 256 := h b1 (by simp)
      have ne2 := b64Char_ne_pad (show b1 % 16 * 4 < 64 by omega)
      have v0 := b64CharVal_b64Char (show b0 / 4 < 64 by omega)
      have v1 := b64CharVal_b64Char (show b0 % 4 * 16 + b1 / 16 < 64 by omega)
      have v2 := b64CharVal_b64Char (show b1 % 16 * 4 < 64 by omega)
      have e2 : b1 % 16 * 4 % 4 = 0 := by omega
      simp [b64EncodeList, b64DecodeList, ne2, v0, v1, v2, e2]
      omega
  | b0 :: b1 :: b2 :: rest, h => by
      have h0 : b0 < 256 := h b0 (by simp)
      have h1 : b1 < 256 := h b1 (by simp)
      have h2 : b2 < 256 := h b2 (by simp)
      have ih := b64_roundtrip rest (fun x hx => h x (by simp [hx]))
      have ne2 := b64Char_ne_pad (show b1 % 16 * 4 + b2 / 64 < 64 by omega)
      have ne3 := b64Char_ne_pad (show b2 % 64 < 64 by omega)
      have v0 := b64CharVal_b64Char (show b0 / 4 < 64 by omega)
      have v1 := b64CharVal_b64Char (show b0 % 4 * 16 + b1 / 16 < 64 by omega)
      have v2 := b64CharVal_b64Char (show b1 % 16 * 4 + b2 / 64 < 64 by omega)
      have v3 := b64CharVal_b64Char (show b2 % 64 < 64 by omega)
      simp [b64EncodeList, b64DecodeList, ne2, ne3, v0, v1, v2, v3, ih]
      omega

/-! ## The signature wrapper (`sign.rs`)

Ed25519 itself lives in the external `ed25519_dalek` crate; it is modelled as
an abstract record: `derive` is `SigningKey::verifying_key`, `rawSign` is
`SigningKey::sign`, `pkValid` is whether `VerifyingKey::from_bytes` accepts a
32-byte encoding, and `rawVerify` is `VerifyingKey::verify(..).is_ok()`.  The
theorems below are about the repository's own wrapper logic: base64 framing,
length checks, and the error/`Ok(false)` split. -/

structure SigModel where
  derive : List Nat → List Nat
  rawSign : List Nat → String → List Nat
  pkValid : List Nat → Bool
  rawVerify : List Nat → String → List Nat → Bool

/-- The `sign` function of `sign.rs`: decode the base64 seed, check its
length, sign, and return the base64 signature.  (The `zeroize` calls are
memory-hygiene side effects with no bearing on the returned value.) -/
def sign (M : SigModel) (secret_key_b64 : String) (data : String) : Except String String :=
  match b64decode secret_key_b64 with
  | none => .error "decoding secret key base64"
  | some sk_bytes =>
      if sk_bytes.length ≠ 32 then .error "secret key must be 32 bytes"
      else .ok (b64encode (M.rawSign sk_bytes data))

/-- The `verify` function of `sign.rs`: structural failures (bad base64,
wrong length, unparseable key) are errors; a well-formed non-matching
signature is `Ok(false)`. -/
def verify (M : SigModel) (public_key_b64 : String) (data : String)
    (signature_b64 : String) : Except String Bool :=
  match b64decode public_key_b64 with
  | none => .error "decoding public key base64"
  | some pk_bytes =>
      if pk_bytes.length ≠ 32 then .error "public key must be 32 bytes"
      else if M.pkValid pk_bytes = false then .error "invalid Ed25519 public key"
      else match b64decode signature_b64 with
        | none => .error "decoding signature base64"
        | some sig_bytes =>
            if sig_bytes.length ≠ 64 then .error "signature must be 64 bytes"
            else .ok (M.rawVerify pk_bytes data sig_bytes)

/-- A public-key input is structurally malformed: not valid base64, not
32 bytes, or rejected by `VerifyingKey::from_bytes`. -/
def pkMalformed (M : SigModel) (s : String) : Prop :=
  match b64decode s with
  | none => True
  | some bs => bs.length ≠ 32 ∨ M.pkValid bs = false

/-- A signature input is structurally malformed: not valid base64 or not
64 bytes. -/
def sigMalformed (s : String) : Prop :=
  match b64decode s with
  | none => True
  | some bs => bs.length ≠ 64

theorem b64decode_b64encode {bs : List Nat} (h : ∀ b ∈ bs, b < 256) :
    b64decode (b64encode bs) = some bs := b64_roundtrip bs h

/-- C2: for a keypair `(sk, pk := derive sk)` whose underlying Ed25519
operations behave as the crate guarantees at the inputs in question
(round-trip verifies; a different byte string or a signature from a different
key does not verify), the repository's wrapper gives `Ok(true)` for the
round trip and `Ok(false)` — never an error — for the mismatches; and
`verify` errors exactly on structurally malformed public-key or signature
inputs (bad base64, wrong length, or a key `VerifyingKey::from_bytes`
rejects). -/
theorem c2_sign_verify (M : SigModel) (sk sk2 : List Nat) (b b2 : String)
    (hlen : sk.length = 32) (hbytes : ∀ x ∈ sk, x < 256)
    (hdlen : (M.derive sk).length = 32) (hdbytes : ∀ x ∈ M.derive sk, x < 256)
    (hvalid : M.pkValid (M.derive sk) = true)
    (hslen : (M.rawSign sk b).length = 64) (hsbytes : ∀ x ∈ M.rawSign sk b, x < 256)
    (hs2len : (M.rawSign sk2 b).length = 64) (hs2bytes : ∀ x ∈ M.rawSign sk2 b, x < 256)
    (hok : M.rawVerify (M.derive sk) b (M.rawSign sk b) = true)
    (hneqdata : b2 ≠ b)
    (hbaddata : M.rawVerify (M.derive sk) b2 (M.rawSign sk b) = false)
    (hneqkey : sk2 ≠ sk)
    (hbadkey : M.rawVerify (M.derive sk) b (M.rawSign sk2 b) = false) :
    sign M (b64encode sk) b = .ok (b64encode (M.rawSign sk b))
    ∧ verify M (b64encode (M.derive sk)) b (b64encode (M.rawSign sk b)) = .ok true
    ∧ verify M (b64encode (M.derive sk)) b2 (b64encode (M.rawSign sk b)) = .ok false
    ∧ verify M (b64encode (M.derive sk)) b (b64encode (M.rawSign sk2 b)) = .ok false
    ∧ (∀ pkb sigb : String, (∃ e, verify M pkb b sigb = .error e) ↔
        (pkMalformed M pkb ∨ sigMalformed sigb)) := by
  refine ⟨?_, ?_, ?_, ?_, ?_⟩
  · rw [sign, b64decode_b64encode hbytes]
    simp [hlen]
  · rw [verify, b64decode_b64encode hdbytes]
    simp only [hdlen]
    rw [if_neg (by simp), if_neg (by simp [hvalid])]
    rw [b64decode_b64encode hsbytes]
    simp [hslen, hok]
  · rw [verify, b64decode_b64encode hdbytes]
    simp only [hdlen]
    rw [if_neg (by simp), if_neg (by simp [hvalid])]
    rw [b64decode_b64encode hsbytes]
    simp [hslen, hbaddata]
  · rw [verify, b64decode_b64encode hdbytes]
    simp only [hdlen]
    rw [if_neg (by simp), if_neg (by simp [hvalid])]
    rw [b64decode_b64encode hs2bytes]
    simp [hs2len, hbadkey]
  · intro pkb sigb
    rw [verify, pkMalformed, sigMalformed]
    cases hpk : b64decode pkb with
    | none => simp
    | some pkBytes =>
        by_cases hl : pkBytes.length = 32
        · by_cases hv : M.pkValid pkBytes = true
          · cases hsig : b64decode sigb with
            | none => simp [hl, hv]
            | some sigBytes =>
                by_cases hsl : sigBytes.length = 64
                · simp [hl, hv, hsl]
                · simp [hl, hv, hsl]
          · simp [hl, hv]
        · simp [hl]

/-- Toy signature backend used to instantiate the C2 hypotheses at concrete
inputs: the public key is the seed itself and a signature is the seed
repeated; verification checks the signature against the key and pins the
message. -/
def exampleSigModel : SigModel :=
  { derive := fun sk => sk
    rawSign := fun sk _ => sk ++ sk
    pkValid := fun _ => true
    rawVerify := fun pk data sig => (sig == pk ++ pk) && (data == "a") }

theorem c2_sign_verify_witness :
    exampleSigModel.rawVerify (exampleSigModel.derive (List.replicate 32 1)) "a"
        (exampleSigModel.rawSign (List.replicate 32 1) "a") = true
    ∧ exampleSigModel.rawVerify (exampleSigModel.derive (List.replicate 32 1)) "b"
        (exampleSigModel.rawSign (List.replicate 32 1) "a") = false
    ∧ exampleSigModel.rawVerify (exampleSigModel.derive (List.replicate 32 1)) "a"
        (exampleSigModel.rawSign (List.replicate 32 2) "a") = false
    ∧ (sign exampleSigModel (b64encode (List.replicate 32 1)) "a" =
          .ok (b64encode (exampleSigModel.rawSign (List.replicate 32 1) "a"))
      ∧ verify exampleSigModel (b64encode (exampleSigModel.derive (List.replicate 32 1))) "a"
          (b64encode (exampleSigModel.rawSign (List.replicate 32 1) "a")) = .ok true
      ∧ verify exampleSigModel (b64encode (exampleSigModel.derive (List.replicate 32 1))) "b"
          (b64encode (exampleSigModel.rawSign (List.replicate 32 1) "a")) = .ok false
      ∧ verify exampleSigModel (b64encode (exampleSigModel.derive (List.replicate 32 1))) "a"
          (b64encode (exampleSigModel.rawSign (List.replicate 32 2) "a")) = .ok false
      ∧ (∀ pkb sigb : String, (∃ e, verify exampleSigModel pkb "a" sigb = .error e) ↔
          (pkMalformed exampleSigModel pkb ∨ sigMalformed sigb))) :=
  ⟨by decide, by decide, by decide,
    c2_sign_verify exampleSigModel (List.replicate 32 1) (List.replicate 32 2) "a" "b"
      (by decide) (by decide) (by decide) (by decide) (by decide) (by decide) (by decide)
      (by decide) (by decide) (by decide) (by decide) (by decide) (by decide) (by decide)⟩

/-! ## Enforcement computation and manifest assembly (`build.rs`) -/

/-- `compute_enforcement` from `build.rs`.  The probe
`std::env::var("SOURCE_DATE_EPOCH").is_ok()` is an environment read, passed
in as `sdeSet`. -/
def compute_enforcement (policy : Policy) (sdeSet : Bool) : Enforcement :=
  match policy.requirements.reproducibility.mode with
  | .A_DETERMINISTIC =>
      { mode_requested := .A_DETERMINISTIC
        mode_enforced := false
        network_blocked := false
        source_date_epoch_set := sdeSet
        notes := some ("VBW v1.0: Mode A requested but network isolation, container pinning, " ++
          "and SOURCE_DATE_EPOCH enforcement are not implemented. " ++
          "The mode is a declaration only.") }
  | .B_LOCKED_NETWORK =>
      { mode_requested := .B_LOCKED_NETWORK
        mode_enforced := false
        network_blocked := false
        source_date_epoch_set := sdeSet
        notes := some ("VBW v1.0: Mode B requested but dependency-source verification " ++
          "is not implemented. Lockfile hashes are recorded but the tool " ++
          "does not verify that the build only fetched from those lockfiles.") }
  | .C_WITNESSED_ND =>
      { mode_requested := .C_WITNESSED_ND
        mode_enforced := true
        network_blocked := false
        source_date_epoch_set := sdeSet
        notes := none }

/-- C5: at assembly time `mode_enforced` is `true` exactly for mode C
("witnessed, non-deterministic"); modes A and B always get
`mode_enforced = false` together with an explanatory note, and mode C gets no
note.  The requested mode is recorded unchanged. -/
theorem c5_enforcement (policy : Policy) (sdeSet : Bool) :
    ((compute_enforcement policy sdeSet).mode_enforced = true ↔
      policy.requirements.reproducibility.mode = .C_WITNESSED_ND)
    ∧ (compute_enforcement policy sdeSet).mode_requested =
        policy.requirements.reproducibility.mode
    ∧ (policy.requirements.reproducibility.mode = .A_DETERMINISTIC ∨
        policy.requirements.reproducibility.mode = .B_LOCKED_NETWORK →
        (compute_enforcement policy sdeSet).mode_enforced = false ∧
          ((compute_enforcement policy sdeSet).notes).isSome = true)
    ∧ (policy.requirements.reproducibility.mode = .C_WITNESSED_ND →
        (compute_enforcement policy sdeSet).notes = none) := by
  cases hm : policy.requirements.reproducibility.mode <;>
    simp [compute_enforcement, hm]

/-- A concrete policy with the given mode, for instantiating hypotheses. -/
def examplePolicy (mode : ReproducibilityMode) : Policy :=
  { policy_version := "1.0"
    requirements :=
      { network := { allowed := true, allowlist := some [] }
        reproducibility := { mode := mode, require_source_date_epoch := some false }
        materials :=
          { require_lockfile_hashes := false
            require_vendor_archive_and_tree := some false }
        signing := none } }

theorem c5_enforcement_witness :
    ((examplePolicy .A_DETERMINISTIC).requirements.reproducibility.mode = .A_DETERMINISTIC ∨
      (examplePolicy .A_DETERMINISTIC).requirements.reproducibility.mode = .B_LOCKED_NETWORK)
    ∧ ((compute_enforcement (examplePolicy .A_DETERMINISTIC) false).mode_enforced = false ∧
        ((compute_enforcement (examplePolicy .A_DETERMINISTIC) false).notes).isSome = true)
    ∧ (examplePolicy .C_WITNESSED_ND).requirements.reproducibility.mode = .C_WITNESSED_ND
    ∧ (compute_enforcement (examplePolicy .C_WITNESSED_ND) true).notes = none :=
  ⟨Or.inl (by decide),
    (c5_enforcement (examplePolicy .A_DETERMINISTIC) false).2.2.1 (Or.inl (by decide)),
    by decide,
    (c5_enforcement (examplePolicy .C_WITNESSED_ND) true).2.2.2 (by decide)⟩

/-- Git state as gathered by `git::get_git_info()`. -/
structure GitInfo where
  commit : String
  branch : Option String
  tag : Option String
  dirty : Bool
deriving DecidableEq

/-- All inputs `run_build` has gathered by its manifest-construction step
(steps 1–11 of the function are policy/key/environment/git/transcript/output
collection, which are external probes; the struct holds their results). -/
structure BuildInputs where
  policy : Policy
  sdeSet : Bool
  policy_file : String
  policy_hash : String
  public_key : String
  resolved_key_id : String
  env_hash : String
  mat_hash : String
  out_hash : String
  git_info : GitInfo
  source_commit_tree_hash : String
  worktree_hash : String
  proj_name : String
  build_id : String
  created_at : String

/-- Steps 8 and 12 of `run_build`: the manifest constructed by the Bundle
Assembler.  `source_worktree_hash` is filled from
`if git_info.dirty { Some(git::source_worktree_hash()?) } else { None }`. -/
def assembleManifest (i : BuildInputs) : Manifest :=
  { vbw_version := "1.0"
    build_id := i.build_id
    created_at := i.created_at
    project := { name := i.proj_name, repo_url := none, homepage := none }
    git :=
      { commit := i.git_info.commit
        branch := i.git_info.branch
        tag := i.git_info.tag
        dirty := i.git_info.dirty }
    source_commit_tree_hash := i.source_commit_tree_hash
    source_worktree_hash := if i.git_info.dirty then some i.worktree_hash else none
    materials_lock_hash := i.mat_hash
    environment_hash := i.env_hash
    outputs_hash := i.out_hash
    builder_identity :=
      { key_id := i.resolved_key_id
        public_key_ed25519 := i.public_key
        issuer := none }
    policy_ref := { path := i.policy_file, hash_sha256 := i.policy_hash }
    enforcement := some (compute_enforcement i.policy i.sdeSet)
    notes := none
    ext := none }

/-- C6: in every manifest built by the Bundle Assembler the
`source_worktree_hash` field is present exactly when the git state is dirty:
absent on a clean tree, present (with the worktree hash) on a dirty tree. -/
theorem c6_worktree_hash (i : BuildInputs) :
    ((assembleManifest i).source_worktree_hash.isSome = true ↔ i.git_info.dirty = true)
    ∧ (i.git_info.dirty = false → (assembleManifest i).source_worktree_hash = none)
    ∧ (i.git_info.dirty = true →
        (assembleManifest i).source_worktree_hash = some i.worktree_hash) := by
  cases h : i.git_info.dirty <;> simp [assembleManifest, h]

/-- Concrete build inputs with the given git-dirty flag. -/
def exampleBuildInputs (dirty : Bool) : BuildInputs :=
  { policy := examplePolicy .C_WITNESSED_ND
    sdeSet := false
    policy_file := "vbw/policy.json"
    policy_hash := "ph"
    public_key := "pk"
    resolved_key_id := "builder@local"
    env_hash := "eh"
    mat_hash := "mh"
    out_hash := "oh"
    git_info := { commit := "c0ffee", branch := some "main", tag := none, dirty := dirty }
    source_commit_tree_hash := "th"
    worktree_hash := "wh"
    proj_name := "demo"
    build_id := "b-1"
    created_at := "2026-01-01T00:00:00Z" }

theorem c6_worktree_hash_witness :
    ((exampleBuildInputs false).git_info.dirty = false ∧
      (assembleManifest (exampleBuildInputs false)).source_worktree_hash = none)
    ∧ ((exampleBuildInputs true).git_info.dirty = true ∧
      (assembleManifest (exampleBuildInputs true)).source_worktree_hash = some "wh") :=
  ⟨⟨by decide, (c6_worktree_hash (exampleBuildInputs false)).2.1 (by decide)⟩,
    ⟨by decide, (c6_worktree_hash (exampleBuildInputs true)).2.2 (by decide)⟩⟩

/-! ## Co-signing filename logic (`cmd_attest` in `main.rs`) -/

/-- One character of the sanitization whitelist: ASCII alphanumeric, hyphen,
underscore or dot survives; everything else becomes an underscore. -/
def sanitizeChar (c : Char) : Char :=
  if c.isAlphanum || c = '-' || c = '_' || c = '.' then c else '_'

/-- Per-character sanitization of a signer key id. -/
def sanitizeKeyId (id : String) : String := ⟨id.data.map sanitizeChar⟩

/-- The `sanitized_id.starts_with('.')` probe. -/
def startsWithChar (s : String) (c : Char) : Bool :=
  match s.data with
  | [] => false
  | d :: _ => d = c

/-- Filename-hazard fallback of `cmd_attest`: prefix `key_` when the
sanitized id is empty, `.`, `..`, or starts with a dot. -/
def finalSanitizedId (id : String) : String :=
  let s := sanitizeKeyId id
  if s = "" ∨ s = "." ∨ s = ".." ∨ startsWithChar s '.' then "key_" ++ s else s

/-- The co-signature file path `cmd_attest` writes (relative to the bundle). -/
def attestSigPath (key_id : String) : String :=
  "signatures/" ++ finalSanitizedId key_id ++ ".ed25519.sig"

/-- C8 (code-bug evidence): sanitization behaves as specified — the
whitelist keeps alphanumerics/`-`/`_`/`.`, other characters become `_`, and
the `key_` fallback fires on empty, `.`, `..` and leading-dot ids — but the
no-overwrite guarantee fails: the key id `builder` passes sanitization
unchanged, so the co-signature is written to
`signatures/builder.ed25519.sig`, the builder's own signature file, which
`fs::write` silently replaces. -/
theorem c8_builder_overwrite :
    attestSigPath "builder" = "signatures/builder.ed25519.sig"
    ∧ finalSanitizedId "alice@example.com" = "alice_example.com"
    ∧ finalSanitizedId "" = "key_"
    ∧ finalSanitizedId "." = "key_."
    ∧ finalSanitizedId ".." = "key_.."
    ∧ finalSanitizedId ".hidden" = "key_.hidden"
    ∧ finalSanitizedId "maintainer-1_ok.v2" = "maintainer-1_ok.v2" := by
  decide

/-! ## Bundle verification (`vbw/verify.rs`)

`run_verify` interleaves filesystem reads with pure checking.  The embedding
passes the filesystem in as an `FsView` record (one field per kind of probe
the function performs, `Except` for fallible `fs::` calls) and the external
crates (SHA-256, serde parsers, Ed25519) as a `VerifyOracles` record; the
control flow, findings and verdicts are translated statement-for-statement
from the source. -/

/-- `MAX_WALK_DEPTH` from `verify.rs`. -/
def MAX_WALK_DEPTH : Nat := 16

inductive Verdict where
  | verified : Verdict
  | verifiedWithVariance (warnings : List String) : Verdict
  | unverified (errors : List String) : Verdict
deriving DecidableEq

/-- `REQUIRED_FILES` from `verify.rs`, in source order. -/
def REQUIRED_FILES : List String :=
  ["manifest.json", "environment.json", "materials.lock.json", "outputs.json",
    "transcript.txt", "policy.json", "signatures/builder.ed25519.sig",
    "hashes/manifest.sha256"]

/-- String prefix test on raw characters (Rust `starts_with`). -/
def strStartsWith (s pre : String) : Bool := pre.data.isPrefixOf s.data

/-- String suffix test on raw characters (Rust `ends_with`). -/
def strEndsWith (s suf : String) : Bool := suf.data.isSuffixOf s.data

/-- Whitespace trim on both ends (Rust `str::trim`). -/
def trimStr (s : String) : String :=
  ⟨((s.data.dropWhile Char.isWhitespace).reverse.dropWhile Char.isWhitespace).reverse⟩

/-- Split a character list at a separator character. -/
def splitOnCharAux (c : Char) : List Char → List Char → List (List Char)
  | cur, [] => [cur.reverse]
  | cur, d :: rest =>
      if d = c then cur.reverse :: splitOnCharAux c [] rest
      else splitOnCharAux c (d :: cur) rest

/-- Segments of a string between occurrences of a separator. -/
def splitSegments (s : String) (c : Char) : List String :=
  (splitOnCharAux c [] s.data).map (fun l => ⟨l⟩)

/-- Final `/`-separated component of a relative path (Rust `file_name`). -/
def lastSeg : List String → String
  | [] => ""
  | [x] => x
  | _ :: rest => lastSeg rest

def fileName (rel : String) : String := lastSeg (splitSegments rel '/')

/-- One filesystem entry under the bundle as seen by `walk_dir`: its path
relative to the canonicalized bundle root, whether it is a directory or
symlink, the link target, and whether the resolved target stays inside the
bundle (`resolved_canonical.starts_with(bundle_dir)`). -/
structure BEntry where
  rel : String
  isDir : Bool
  isSymlink : Bool
  target : String
  resolvedInBundle : Bool
deriving DecidableEq

/-- The filesystem as observed by `run_verify`: one field per probe. -/
structure FsView where
  bundleExists : Bool
  bundleIsDir : Bool
  canonicalizeOk : Bool
  present : List String
  walk : Except String (List BEntry)
  readFile : String → Except String String
  artifactExists : String → Bool
  artifactRealPath : String → Option String
  cwd : String
  artifactFileHash : String → Except String String

/-- External collaborators of `run_verify`: SHA-256 over file bytes, the
serde parsers for each component type, and the Ed25519 backend. -/
structure VerifyOracles where
  sha256hex : String → String
  parseManifest : String → Except String Manifest
  parseEnvironment : String → Except String Environment
  parseMaterials : String → Except String MaterialsLock
  parseOutputs : String → Except String Outputs
  parsePolicy : String → Except String Policy
  sig : SigModel

/-- Co-signature filename pattern accepted by the closed-world check:
`*.ed25519.sig` with a nonempty restricted-alphabet stem.  (Rust checks
`char::is_alphanumeric`; the embedding checks the ASCII subset, which covers
every filename the repository itself produces.) -/
def cosigNameOk (name : String) : Bool :=
  strEndsWith name ".ed25519.sig" &&
    decide (name.length > ".ed25519.sig".length) &&
    name.data.all (fun c => c.isAlphanum || c = '_' || c = '-' || c = '.')

/-- `check_unexpected_files`: walk the bundle and report anything that is not
a required file, one of the two known subdirectories, or a well-named
co-signature file under `signatures/`. -/
def checkUnexpectedFiles (fs : FsView) : Except String (List String) :=
  match fs.walk with
  | .error e => .error e
  | .ok entries =>
      .ok (entries.filterMap (fun en =>
        if en.isDir then
          if en.rel = "signatures" || en.rel = "hashes" then none
          else some ("Unexpected directory in bundle: " ++ en.rel)
        else if REQUIRED_FILES.contains en.rel then none
        else if strStartsWith en.rel "signatures/" && cosigNameOk (fileName en.rel) then none
        else some ("Unexpected file in bundle: " ++ en.rel)))

/-- `check_symlink_safety`: report every symlink whose resolved target leaves
the bundle directory. -/
def checkSymlinkSafety (fs : FsView) : Except String (List String) :=
  match fs.walk with
  | .error e => .error e
  | .ok entries =>
      .ok (entries.filterMap (fun en =>
        if en.isSymlink && !en.resolvedInBundle then
          some ("Symlink escapes bundle: " ++ en.rel ++ " -> " ++ en.target)
        else none))

/-- `verify_and_parse_component`: hash the literal file bytes against the
manifest link hash (mismatch is an error), then parse (a parse failure after
a hash match is only a warning). -/
def verifyAndParseComponent {α : Type} (sha : String → String) (fs : FsView)
    (filename expected : String) (parse : String → Except String α) :
    List String × List String × Option α :=
  match fs.readFile filename with
  | .error e => (["Cannot read " ++ filename ++ ": " ++ e], [], none)
  | .ok data =>
      let errs := if sha data ≠ expected then
          [filename ++ " hash mismatch: manifest=" ++ expected ++ ", computed=" ++ sha data]
        else []
      match parse data with
      | .ok v => (errs, [], some v)
      | .error e =>
          (errs, [filename ++ " passed hash check but failed to parse: " ++ e ++
            " (related checks skipped)"], none)

/-- Rust `std::path::Component` (Unix flavor). -/
inductive PathComponent where
  | rootDir : PathComponent
  | curDir : PathComponent
  | parentDir : PathComponent
  | normal (s : String) : PathComponent
deriving DecidableEq

/-- Convert raw segments the way `Path::components()` normalizes them: empty
segments vanish, `.` survives only as a leading component, `..` is
`ParentDir`, anything else is `Normal`. -/
def convSegs : Bool → List String → List PathComponent
  | _, [] => []
  | first, seg :: rest =>
      if seg = ".." then .parentDir :: convSegs false rest
      else if seg = "." then
        (if first then [.curDir] else []) ++ convSegs false rest
      else .normal seg :: convSegs false rest

/-- Non-empty `/`-separated segments of a path. -/
def pathSegs (s : String) : List String :=
  (splitSegments s '/').filter (fun seg => ¬ seg = "")

/-- `PathBuf::from(s).components()` for Unix-style paths. -/
def rustPathComponents (s : String) : List PathComponent :=
  if strStartsWith s "/" then .rootDir :: convSegs false (pathSegs s)
  else convSegs true (pathSegs s)

/-- Hash-equality step of the artifact check (step 11 of `run_verify`). -/
def artifactHashCheck (fs : FsView) (a : Artifact) : List String × List String :=
  match fs.artifactFileHash a.path with
  | .ok h =>
      if h = a.sha256 then ([], [])
      else (["Artifact " ++ a.path ++ " hash mismatch: expected=" ++ a.sha256 ++
        ", actual=" ++ h], [])
  | .error e => (["Failed to hash artifact " ++ a.path ++ ": " ++ e], [])

/-- Per-artifact body of step 11 of `run_verify`: reject absolute paths and
parent-directory components (per parsed path component), reject symlink
escapes out of the working directory, re-hash existing artifacts, and warn
about absent ones. -/
def checkArtifact (fs : FsView) (a : Artifact) : List String × List String :=
  if strStartsWith a.path "/" then
    (["Artifact path is absolute: " ++ a.path ++ " (path traversal rejected)"], [])
  else if (rustPathComponents a.path).contains .parentDir then
    (["Artifact path contains parent directory traversal: " ++ a.path ++ " (rejected)"], [])
  else if fs.artifactExists a.path then
    match fs.artifactRealPath a.path with
    | some rp =>
        if ¬ strStartsWith rp fs.cwd then
          (["Artifact " ++ a.path ++
            " resolves outside project directory (symlink escape rejected)"], [])
        else artifactHashCheck fs a
    | none => artifactHashCheck fs a
  else ([], ["Artifact " ++ a.path ++ " not found (may have been deployed)"])

/-- Step 11 loop over all declared artifacts. -/
def checkArtifacts (fs : FsView) : List Artifact → List String × List String
  | [] => ([], [])
  | a :: rest =>
      let r := checkArtifact fs a
      let rs := checkArtifacts fs rest
      (r.1 ++ rs.1, r.2 ++ rs.2)

/-- Step 12 of `run_verify`: enforcement consistency.  Runs only when both
the manifest's enforcement record and a parsed policy are present. -/
def enforcementCheck (m : Manifest) (pol : Option Policy) : List String × List String :=
  match m.enforcement, pol with
  | some enf, some p =>
      ((if enf.mode_requested ≠ p.requirements.reproducibility.mode then
          ["Enforcement mode_requested (" ++ modeDebug enf.mode_requested ++
            ") does not match policy mode (" ++
            modeDebug p.requirements.reproducibility.mode ++ ")"]
        else []),
        (if enf.mode_enforced = false then
          ["Mode " ++ modeDebug enf.mode_requested ++
            " was requested but NOT enforced at build time (mode_enforced=false)"]
        else []))
  | _, _ => ([], [])

/-- `check_policy_compliance` (step 13): warning-only checks. -/
def checkPolicyCompliance (m : Manifest) (p : Policy) (env : Option Environment)
    (mat : Option MaterialsLock) : List String :=
  (if m.git.dirty then ["Build from dirty git tree"] else [])
  ++ (match env with
      | some e =>
          if e.reproducibility.mode ≠ p.requirements.reproducibility.mode then
            ["Environment mode " ++ modeDebug e.reproducibility.mode ++
              " differs from policy " ++ modeDebug p.requirements.reproducibility.mode]
          else []
      | none => [])
  ++ (if p.requirements.materials.require_lockfile_hashes then
        match mat with
        | some ml => if ml.lockfiles.isEmpty then
            ["Policy requires lockfile hashes but none found"] else []
        | none => []
      else [])

/-- `emit_verdict`: errors dominate, then warnings, then `Verified`. -/
def emit_verdict (errors warnings : List String) : Verdict :=
  if !errors.isEmpty then .unverified errors
  else if !warnings.isEmpty then .verifiedWithVariance warnings
  else .verified

/-- Steps 6–13 of `run_verify`, entered once the manifest has been parsed:
all findings are accumulated and the verdict is emitted at the end. -/
def runVerifyMain (o : VerifyOracles) (fs : FsView) (m : Manifest) :
    Except String Verdict :=
  let canonicalBytes := canonicalManifestBytes m
  let computed := o.sha256hex canonicalBytes
  match fs.readFile "hashes/manifest.sha256" with
  | .error e => .error ("reading hashes/manifest.sha256: " ++ e)
  | .ok storedRaw =>
      let stored := trimStr storedRaw
      let e7 := if stored ≠ computed then
          ["Manifest hash mismatch: stored=" ++ stored ++ ", computed=" ++ computed ++
            " (from canonical bytes)"]
        else []
      match fs.readFile "signatures/builder.ed25519.sig" with
      | .error e => .error ("reading signatures/builder.ed25519.sig: " ++ e)
      | .ok sigRaw =>
          let e8 := match verify o.sig m.builder_identity.public_key_ed25519
              canonicalBytes (trimStr sigRaw) with
            | .ok true => []
            | .ok false => ["Builder signature INVALID (verified against canonical manifest bytes)"]
            | .error e => ["Signature verification error: " ++ e]
          let envR := verifyAndParseComponent o.sha256hex fs "environment.json"
            m.environment_hash o.parseEnvironment
          let matR := verifyAndParseComponent o.sha256hex fs "materials.lock.json"
            m.materials_lock_hash o.parseMaterials
          let outR := verifyAndParseComponent o.sha256hex fs "outputs.json"
            m.outputs_hash o.parseOutputs
          match fs.readFile "policy.json" with
          | .error e => .error ("reading policy.json: " ++ e)
          | .ok policyData =>
              let e10 := if o.sha256hex policyData ≠ m.policy_ref.hash_sha256 then
                  ["Policy hash mismatch: manifest=" ++ m.policy_ref.hash_sha256 ++
                    ", computed=" ++ o.sha256hex policyData]
                else []
              let polw : Option Policy × List String := match o.parsePolicy policyData with
                | .ok p => (some p, [])
                | .error e => (none, ["policy.json passed hash check but failed to parse: " ++
                    e ++ " (policy compliance checks skipped)"])
              let arts := match outR.2.2 with
                | some outs => checkArtifacts fs outs.artifacts
                | none => ([], [])
              let enf := enforcementCheck m polw.1
              let w13 := match polw.1 with
                | some p => checkPolicyCompliance m p envR.2.2 matR.2.2
                | none => []
              .ok (emit_verdict
                (e7 ++ e8 ++ envR.1 ++ matR.1 ++ outR.1 ++ e10 ++ arts.1 ++ enf.1)
                (envR.2.1 ++ matR.2.1 ++ outR.2.1 ++ polw.2 ++ arts.2 ++ enf.2 ++ w13))

/-- `run_verify`: the verification state machine.  States 0–1 (path sanity),
2 (completeness), 3 (closed world) and 4 (symlink safety) return early;
manifest read/parse failures propagate as `Err`; everything later
accumulates via `runVerifyMain`. -/
def run_verify (o : VerifyOracles) (fs : FsView) : Except String Verdict :=
  if fs.bundleExists = false then
    .ok (.unverified ["Bundle directory does not exist"])
  else if fs.bundleIsDir = false then
    .ok (.unverified ["Bundle path is not a directory"])
  else if fs.canonicalizeOk = false then
    .error "resolving bundle path"
  else
    let missing := REQUIRED_FILES.filter (fun r => !(fs.present.contains r))
    if !missing.isEmpty then
      .ok (emit_verdict (missing.map (fun r => "Required file missing: " ++ r)) [])
    else
      match checkUnexpectedFiles fs with
      | .error e => .error e
      | .ok errs3 =>
          if !errs3.isEmpty then .ok (emit_verdict errs3 [])
          else
            match checkSymlinkSafety fs with
            | .error e => .error e
            | .ok errs4 =>
                if !errs4.isEmpty then .ok (emit_verdict errs4 [])
                else
                  match fs.readFile "manifest.json" with
                  | .error e => .error ("reading manifest.json: " ++ e)
                  | .ok mjson =>
                      match o.parseManifest mjson with
                      | .error e => .error ("parsing manifest.json: " ++ e)
                      | .ok m => runVerifyMain o fs m

/-- Exit-code mapping of the `Verify` arm of `main`. -/
def exitCode : Verdict → Nat
  | .verified => 0
  | .verifiedWithVariance _ => 0
  | .unverified _ => 1

theorem emit_verdict_of_errors {e : List String} (w : List String) (h : e ≠ []) :
    emit_verdict e w = .unverified e := by
  unfold emit_verdict
  rw [if_pos (by simpa using h)]

theorem emit_verdict_of_warnings {w : List String} (h : w ≠ []) :
    emit_verdict [] w = .verifiedWithVariance w := by
  unfold emit_verdict
  rw [if_neg (by simp), if_pos (by simpa using h)]

theorem emit_verdict_clean : emit_verdict [] [] = .verified := rfl

theorem emit_verdict_unverified_inv {e w es : List String}
    (h : emit_verdict e w = .unverified es) : es = e ∧ e ≠ [] := by
  unfold emit_verdict at h
  by_cases he : e.isEmpty
  · rw [if_neg (by simp [he])] at h
    by_cases hw : w.isEmpty
    · rw [if_neg (by simp [hw])] at h
      cases h
    · rw [if_pos (by simp [hw])] at h
      cases h
  · rw [if_pos (by simp [he])] at h
    injection h with h2
    exact ⟨h2.symm, by simpa using he⟩

theorem emit_verdict_vwv_inv {e w ws : List String}
    (h : emit_verdict e w = .verifiedWithVariance ws) : ws = w ∧ w ≠ [] ∧ e = [] := by
  unfold emit_verdict at h
  by_cases he : e.isEmpty
  · rw [if_neg (by simp [he])] at h
    by_cases hw : w.isEmpty
    · rw [if_neg (by simp [hw])] at h
      cases h
    · rw [if_pos (by simp [hw])] at h
      injection h with h2
      exact ⟨h2.symm, by simpa using hw, by simpa using he⟩
  · rw [if_pos (by simp [he])] at h
    cases h

theorem runVerifyMain_shape (o : VerifyOracles) (fs : FsView) (m : Manifest) (r : Verdict)
    (h : runVerifyMain o fs m = .ok r) : ∃ e w, r = emit_verdict e w := by
  simp only [runVerifyMain] at h
  split at h
  · exact Except.noConfusion h
  · split at h
    · exact Except.noConfusion h
    · split at h
      · exact Except.noConfusion h
      · injection h with h2
        exact ⟨_, _, h2.symm⟩

theorem run_verify_shape (o : VerifyOracles) (fs : FsView) (r : Verdict)
    (h : run_verify o fs = .ok r) :
    (∃ msg, r = .unverified [msg]) ∨ ∃ e w, r = emit_verdict e w := by
  simp only [run_verify] at h
  split at h
  · injection h with h2
    exact Or.inl ⟨_, h2.symm⟩
  · split at h
    · injection h with h2
      exact Or.inl ⟨_, h2.symm⟩
    · split at h
      · exact Except.noConfusion h
      · split at h
        · injection h with h2
          exact Or.inr ⟨_, _, h2.symm⟩
        · split at h
          · exact Except.noConfusion h
          · split at h
            · injection h with h2
              exact Or.inr ⟨_, _, h2.symm⟩
            · split at h
              · exact Except.noConfusion h
              · split at h
                · injection h with h2
                  exact Or.inr ⟨_, _, h2.symm⟩
                · split at h
                  · exact Except.noConfusion h
                  · split at h
                    · exact Except.noConfusion h
                    · exact Or.inr (runVerifyMain_shape o fs _ r h)

/-- C4: `emit_verdict` classifies exactly as the spec says — `Unverified`
precisely when at least one error was recorded (it always dominates), else
`VerifiedWithVariance` when at least one warning was recorded, else
`Verified` — every `Unverified`/`VerifiedWithVariance` verdict `run_verify`
returns carries a nonempty error/warning list, and the process exit code is
`0` for `Verified` and `VerifiedWithVariance` and `1` (nonzero) for
`Unverified`. -/
theorem c4_verdicts :
    (∀ e w : List String,
      (e ≠ [] → emit_verdict e w = .unverified e)
      ∧ (emit_verdict e w = .unverified e → e ≠ [])
      ∧ (e = [] → w ≠ [] → emit_verdict e w = .verifiedWithVariance w)
      ∧ (e = [] → w = [] → emit_verdict e w = .verified))
    ∧ (∀ (o : VerifyOracles) (fs : FsView) (es : List String),
        run_verify o fs = .ok (.unverified es) → es ≠ [])
    ∧ (∀ (o : VerifyOracles) (fs : FsView) (ws : List String),
        run_verify o fs = .ok (.verifiedWithVariance ws) → ws ≠ [])
    ∧ exitCode .verified = 0
    ∧ (∀ ws, exitCode (.verifiedWithVariance ws) = 0)
    ∧ (∀ es, exitCode (.unverified es) = 1) := by
  refine ⟨?_, ?_, ?_, rfl, fun _ => rfl, fun _ => rfl⟩
  · intro e w
    refine ⟨emit_verdict_of_errors w, ?_, ?_, ?_⟩
    · intro h
      exact (emit_verdict_unverified_inv h).2
    · rintro rfl hw
      exact emit_verdict_of_warnings hw
    · rintro rfl rfl
      exact emit_verdict_clean
  · intro o fs es h
    rcases run_verify_shape o fs _ h with ⟨msg, hm⟩ | ⟨e, w, hm⟩
    · injection hm with h2
      simp [h2]
    · rcases emit_verdict_unverified_inv hm.symm with ⟨h1, h2⟩
      rw [h1]
      exact h2
  · intro o fs ws h
    rcases run_verify_shape o fs _ h with ⟨msg, hm⟩ | ⟨e, w, hm⟩
    · exact Verdict.noConfusion hm
    · rcases emit_verdict_vwv_inv hm.symm with ⟨h1, h2, _⟩
      rw [h1]
      exact h2

theorem c4_verdicts_witness :
    ((["e1"] : List String) ≠ [] ∧ emit_verdict ["e1"] ["w1"] = .unverified ["e1"])
    ∧ emit_verdict [] ["w1"] = .verifiedWithVariance ["w1"]
    ∧ emit_verdict [] [] = .verified
    ∧ exitCode (.unverified ["e1"]) = 1
    ∧ exitCode (.verifiedWithVariance ["w1"]) = 0 :=
  ⟨⟨by decide, (c4_verdicts.1 ["e1"] ["w1"]).1 (by decide)⟩,
    (c4_verdicts.1 [] ["w1"]).2.2.1 rfl (by decide),
    (c4_verdicts.1 [] []).2.2.2 rfl rfl,
    c4_verdicts.2.2.2.2.2 ["e1"],
    c4_verdicts.2.2.2.2.1 ["w1"]⟩

/-! ## A concrete clean bundle

Used to instantiate the verification theorems: the identity function stands
in for SHA-256 (only hash equality matters to the control flow), parsers
recognize the exact file payloads the `FsView` serves, and the signature
backend accepts everything. -/

/-- Toy hash oracle: the identity on file text. -/
def idHash : String → String := fun s => s

def exampleEnvironment : Environment :=
  { os := { name := "linux", version := none, kernel := none, arch := none }
    container := none
    tools := []
    env := none
    locale := none
    timezone := none
    reproducibility := { mode := .C_WITNESSED_ND, source_date_epoch := none, network := none } }

/-- Manifest of the concrete clean bundle; note `enforcement = none`. -/
def cleanManifest : Manifest :=
  { vbw_version := "1.0"
    build_id := "clean-build"
    created_at := "2026-01-01T00:00:00Z"
    project := { name := "demo", repo_url := none, homepage := none }
    git := { commit := "aabbccddee", branch := some "main", tag := none, dirty := false }
    source_commit_tree_hash := "aaaa"
    source_worktree_hash := none
    materials_lock_hash := "MAT"
    environment_hash := "ENV"
    outputs_hash := "OUT"
    builder_identity :=
      { key_id := "test"
        public_key_ed25519 := b64encode (List.replicate 32 0)
        issuer := none }
    policy_ref := { path := "vbw/policy.json", hash_sha256 := "POL" }
    enforcement := none
    notes := none
    ext := none }

def fileEntry (rel : String) : BEntry :=
  { rel := rel, isDir := false, isSymlink := false, target := "", resolvedInBundle := true }

def dirEntry (rel : String) : BEntry :=
  { rel := rel, isDir := true, isSymlink := false, target := "", resolvedInBundle := true }

def cleanEntries : List BEntry :=
  [dirEntry "signatures", dirEntry "hashes"] ++ REQUIRED_FILES.map fileEntry

def cleanReadFile : String → Except String String := fun p =>
  if p = "manifest.json" then .ok "MANIFEST"
  else if p = "hashes/manifest.sha256" then .ok (canonicalManifestBytes cleanManifest)
  else if p = "signatures/builder.ed25519.sig" then .ok (b64encode (List.replicate 64 0))
  else if p = "environment.json" then .ok "ENV"
  else if p = "materials.lock.json" then .ok "MAT"
  else if p = "outputs.json" then .ok "OUT"
  else if p = "policy.json" then .ok "POL"
  else .error "no such file"

def cleanFs : FsView :=
  { bundleExists := true
    bundleIsDir := true
    canonicalizeOk := true
    present := REQUIRED_FILES
    walk := .ok cleanEntries
    readFile := cleanReadFile
    artifactExists := fun _ => false
    artifactRealPath := fun _ => none
    cwd := "/work"
    artifactFileHash := fun _ => .error "unused" }

/-- Signature backend that accepts every well-formed signature. -/
def okSig : SigModel :=
  { derive := fun sk => sk
    rawSign := fun sk _ => sk ++ sk
    pkValid := fun _ => true
    rawVerify := fun _ _ _ => true }

def cleanOracles : VerifyOracles :=
  { sha256hex := idHash
    parseManifest := fun s => if s = "MANIFEST" then .ok cleanManifest else .error "bad manifest"
    parseEnvironment := fun s => if s = "ENV" then .ok exampleEnvironment else .error "bad env"
    parseMaterials := fun s =>
      if s = "MAT" then .ok { lockfiles := [], materials := [] } else .error "bad mat"
    parseOutputs := fun s => if s = "OUT" then .ok { artifacts := [] } else .error "bad out"
    parsePolicy := fun s =>
      if s = "POL" then .ok (examplePolicy .C_WITNESSED_ND) else .error "bad pol"
    sig := okSig }

set_option maxRecDepth 20000 in
/-- C10: when the parsed manifest's `enforcement` field is `None`, the
enforcement-consistency state contributes no error and no warning whatever
the policy is, and an otherwise clean bundle whose manifest carries no
enforcement record still verdicts `Verified` — witnessed by the concrete
clean bundle above. -/
theorem c10_enforcement_skipped :
    (∀ (m : Manifest) (pol : Option Policy), m.enforcement = none →
      enforcementCheck m pol = ([], []))
    ∧ cleanManifest.enforcement = none
    ∧ run_verify cleanOracles cleanFs = .ok Verdict.verified := by
  constructor
  · intro m pol h
    unfold enforcementCheck
    rw [h]
  · exact ⟨rfl, by decide⟩

theorem c10_enforcement_skipped_witness :
    cleanManifest.enforcement = none
    ∧ enforcementCheck cleanManifest (some (examplePolicy .C_WITNESSED_ND)) = ([], []) :=
  ⟨by decide,
    c10_enforcement_skipped.1 cleanManifest (some (examplePolicy .C_WITNESSED_ND)) rfl⟩

/-! ## C3: which states actually short-circuit

In the source only states 0–4 (path sanity, completeness, closed world,
symlink safety) return early; from the manifest-hash state on, findings are
pushed into the shared `errors`/`warnings` vectors and every later check
still runs.  The counterexample exhibits a bundle whose manifest-hash state
fails and whose verdict nevertheless also carries the signature state's
finding. -/

/-- Signature backend that rejects every signature. -/
def badSig : SigModel :=
  { derive := fun sk => sk
    rawSign := fun sk _ => sk ++ sk
    pkValid := fun _ => true
    rawVerify := fun _ _ _ => false }

/-- The clean bundle with a corrupted stored manifest hash and a signature
that does not verify. -/
def tamperedFs : FsView :=
  { cleanFs with readFile := fun p =>
      if p = "hashes/manifest.sha256" then .ok "0000" else cleanReadFile p }

def tamperedOracles : VerifyOracles := { cleanOracles with sig := badSig }

set_option maxRecDepth 20000 in
/-- C3 counterexample: on this bundle the manifest-hash state fails (stored
`0000` differs from the recomputed canonical hash), yet `run_verify` still
performs the signature check afterwards — the verdict carries the signature
state's own finding as its second error.  Under the claim, after the
manifest-hash mismatch the verdict would have carried the hash error alone. -/
theorem c3_counterexample :
    run_verify tamperedOracles tamperedFs = .ok (.unverified
      ["Manifest hash mismatch: stored=0000, computed=" ++
          canonicalManifestBytes cleanManifest ++ " (from canonical bytes)",
        "Builder signature INVALID (verified against canonical manifest bytes)"]) := by
  decide

/-- C3 (amended): only the early states short-circuit.  Given a resolvable
bundle directory: a failed completeness state yields `Unverified` carrying
exactly the missing-file errors; with completeness passing, a failed
closed-world state yields `Unverified` carrying exactly its errors; with both
passing, a failed symlink-safety state yields `Unverified` carrying exactly
its errors — in each case no later state contributes any finding.  (States
from manifest load onward accumulate instead, as the counterexample shows.) -/
theorem c3_short_circuit_amended (o : VerifyOracles) (fs : FsView)
    (hex : fs.bundleExists = true) (hdir : fs.bundleIsDir = true)
    (hcan : fs.canonicalizeOk = true) :
    (REQUIRED_FILES.filter (fun r => !(fs.present.contains r)) ≠ [] →
      run_verify o fs = .ok (.unverified
        ((REQUIRED_FILES.filter (fun r => !(fs.present.contains r))).map
          (fun r => "Required file missing: " ++ r))))
    ∧ (∀ errs3, REQUIRED_FILES.filter (fun r => !(fs.present.contains r)) = [] →
        checkUnexpectedFiles fs = .ok errs3 → errs3 ≠ [] →
        run_verify o fs = .ok (.unverified errs3))
    ∧ (∀ errs3 errs4, REQUIRED_FILES.filter (fun r => !(fs.present.contains r)) = [] →
        checkUnexpectedFiles fs = .ok errs3 → errs3 = [] →
        checkSymlinkSafety fs = .ok errs4 → errs4 ≠ [] →
        run_verify o fs = .ok (.unverified errs4)) := by
  refine ⟨?_, ?_, ?_⟩
  · intro hmiss
    simp only [run_verify, hex, hdir, hcan]
    rw [if_neg (by simp), if_neg (by simp), if_neg (by simp)]
    rw [if_pos (by simpa using hmiss)]
    rw [emit_verdict_of_errors _ (by simpa using hmiss)]
  · intro errs3 hmiss hck herrs
    simp only [run_verify, hex, hdir, hcan]
    rw [if_neg (by simp), if_neg (by simp), if_neg (by simp)]
    rw [if_neg (by rw [hmiss]; decide)]
    simp only [hck]
    rw [if_pos (by simpa using herrs)]
    rw [emit_verdict_of_errors _ herrs]
  · intro errs3 errs4 hmiss hck herrs3 hsym herrs4
    simp only [run_verify, hex, hdir, hcan]
    rw [if_neg (by simp), if_neg (by simp), if_neg (by simp)]
    rw [if_neg (by rw [hmiss]; decide)]
    simp only [hck, herrs3]
    rw [if_neg (by decide)]
    simp only [hsym]
    rw [if_pos (by simpa using herrs4)]
    rw [emit_verdict_of_errors _ herrs4]

/-- Clean bundle with all required files absent from the directory. -/
def missingFs : FsView := { cleanFs with present := [] }

/-- Clean bundle with one unexpected extra file. -/
def extraFs : FsView :=
  { cleanFs with walk := .ok (cleanEntries ++ [fileEntry "evil.txt"]) }

/-- Clean bundle with an allowed-by-name co-signature file that is a symlink
escaping the bundle. -/
def symFs : FsView :=
  { cleanFs with walk := .ok (cleanEntries ++
      [{ rel := "signatures/extra.ed25519.sig", isDir := false, isSymlink := true,
         target := "/etc/passwd", resolvedInBundle := false }]) }

set_option maxRecDepth 20000 in
theorem c3_short_circuit_amended_witness :
    (REQUIRED_FILES.filter (fun r => !((missingFs).present.contains r)) ≠ [] ∧
      run_verify cleanOracles missingFs = .ok (.unverified
        ((REQUIRED_FILES.filter (fun r => !((missingFs).present.contains r))).map
          (fun r => "Required file missing: " ++ r))))
    ∧ (checkUnexpectedFiles extraFs = .ok ["Unexpected file in bundle: evil.txt"] ∧
      run_verify cleanOracles extraFs = .ok (.unverified
        ["Unexpected file in bundle: evil.txt"]))
    ∧ (checkSymlinkSafety symFs = .ok
        ["Symlink escapes bundle: signatures/extra.ed25519.sig -> /etc/passwd"] ∧
      run_verify cleanOracles symFs = .ok (.unverified
        ["Symlink escapes bundle: signatures/extra.ed25519.sig -> /etc/passwd"])) :=
  ⟨⟨by decide,
    (c3_short_circuit_amended cleanOracles missingFs (by decide) (by decide) (by decide)).1
      (by decide)⟩,
  ⟨by decide,
    (c3_short_circuit_amended cleanOracles extraFs (by decide) (by decide) (by decide)).2.1
      ["Unexpected file in bundle: evil.txt"] (by decide) (by decide) (by decide)⟩,
  ⟨by decide,
    (c3_short_circuit_amended cleanOracles symFs (by decide) (by decide) (by decide)).2.2
      [] ["Symlink escapes bundle: signatures/extra.ed25519.sig -> /etc/passwd"]
      (by decide) (by decide) (by decide) (by decide) (by decide)⟩⟩

/-- C7: the verifier's per-artifact path check records an error for every
absolute path and for every path containing a parent-directory component,
deciding on parsed path components — so a filename that merely contains the
substring `..` (such as `my..file.txt`) is not rejected, while a real
traversal like `a/../b` or `..` is; the check is a total function, so it
completes on every input without crashing the verifier. -/
theorem c7_path_safety (fs : FsView) (a : Artifact) :
    (strStartsWith a.path "/" = true →
      checkArtifact fs a =
        (["Artifact path is absolute: " ++ a.path ++ " (path traversal rejected)"], []))
    ∧ (strStartsWith a.path "/" = false →
        (rustPathComponents a.path).contains .parentDir = true →
        checkArtifact fs a =
          (["Artifact path contains parent directory traversal: " ++ a.path ++
            " (rejected)"], []))
    ∧ ((rustPathComponents "my..file.txt").contains .parentDir = false
        ∧ strStartsWith "my..file.txt" "/" = false
        ∧ (rustPathComponents "a/../b").contains .parentDir = true
        ∧ (rustPathComponents "..").contains .parentDir = true
        ∧ (rustPathComponents "a/..b/c..d.txt").contains .parentDir = false) := by
  refine ⟨?_, ?_, by decide⟩
  · intro h
    unfold checkArtifact
    rw [if_pos h]
  · intro h1 h2
    unfold checkArtifact
    rw [if_neg (by simp [h1]), if_pos h2]

def exampleAbsArtifact : Artifact :=
  { path := "/etc/passwd", sha256 := "s", size_bytes := 1, mime := none,
    build_id := none, notes := none }

def exampleTravArtifact : Artifact :=
  { path := "a/../b", sha256 := "s", size_bytes := 1, mime := none,
    build_id := none, notes := none }

theorem c7_path_safety_witness :
    (strStartsWith "/etc/passwd" "/" = true
      ∧ checkArtifact cleanFs exampleAbsArtifact =
          (["Artifact path is absolute: /etc/passwd (path traversal rejected)"], []))
    ∧ (strStartsWith "a/../b" "/" = false
      ∧ (rustPathComponents "a/../b").contains .parentDir = true
      ∧ checkArtifact cleanFs exampleTravArtifact =
          (["Artifact path contains parent directory traversal: a/../b (rejected)"], [])) :=
  ⟨⟨by decide, (c7_path_safety cleanFs exampleAbsArtifact).1 (by decide)⟩,
    ⟨by decide, by decide,
      (c7_path_safety cleanFs exampleTravArtifact).2.1 (by decide) (by decide)⟩⟩

/-! ## The bounded, cycle-safe directory walk (`walk_dir` / `walk_dir_inner`)

The filesystem is a forest of directories identified by their resolved real
path (the value `canonicalize` returns), here an id; symlinked directories
are two `dir` entries sharing a real id, which is exactly what makes cycles
possible.  The source counts depth upwards and fails on `depth >
MAX_WALK_DEPTH`; the embedding counts the remaining budget downwards
(`depthLeft = MAX_WALK_DEPTH + 1 - depth`), which is the same guard and
makes the recursion structural, i.e. termination is by construction. -/

inductive FsEntry where
  | file (path : String) : FsEntry
  | dir (path : String) (real : Nat) : FsEntry
deriving DecidableEq

structure FsModel where
  entries : Nat → List FsEntry

def msgDepthExceeded (real : Nat) : String :=
  "Directory traversal exceeded maximum depth (" ++ toString MAX_WALK_DEPTH ++
    ") at dir#" ++ toString real ++ " - possible symlink cycle"

def msgCycleDetected (real : Nat) : String :=
  "Directory cycle detected at dir#" ++ toString real ++ " (already visited via symlink)"

/-- The `for entry in fs::read_dir(dir)` loop of `walk_dir_inner`: every
entry's path is collected, directories recurse one level deeper via
`recurse`, and the visited set threads through the whole walk (the source
shares one `&mut HashSet`). -/
def walkEntriesF (recurse : Nat → List Nat → Except String (List String × List Nat)) :
    List FsEntry → List Nat → Except String (List String × List Nat)
  | [], visited => .ok ([], visited)
  | .file p :: rest, visited =>
      match walkEntriesF recurse rest visited with
      | .error e => .error e
      | .ok (ps, v) => .ok (p :: ps, v)
  | .dir p r :: rest, visited =>
      match recurse r visited with
      | .error e => .error e
      | .ok (sub, v1) =>
          match walkEntriesF recurse rest v1 with
          | .error e => .error e
          | .ok (ps, v2) => .ok (p :: (sub ++ ps), v2)

/-- `walk_dir_inner`: fail when the depth budget is exhausted
(`depth > MAX_WALK_DEPTH` in the source), fail when this directory's real
path was already visited (cycle), otherwise record it and walk the children. -/
def walkDirInner (fsm : FsModel) :
    Nat → Nat → List Nat → Except String (List String × List Nat)
  | 0, real, _ => .error (msgDepthExceeded real)
  | depthLeft + 1, real, visited =>
      if visited.contains real then .error (msgCycleDetected real)
      else walkEntriesF (fun r v => walkDirInner fsm depthLeft r v)
        (fsm.entries real) (real :: visited)

/-- `walk_dir`: start with an empty visited set and the full depth budget. -/
def walk_dir (fsm : FsModel) (root : Nat) : Except String (List String) :=
  (walkDirInner fsm (MAX_WALK_DEPTH + 1) root []).map Prod.fst

/-- Two directories symlinked into each other: real path 0 contains 1 and
real path 1 contains 0 again. -/
def cycleFs : FsModel :=
  ⟨fun i => if i = 0 then [.dir "a" 1] else if i = 1 then [.dir "b" 0] else []⟩

/-- A 30-deep chain of nested directories. -/
def deepFs : FsModel := ⟨fun i => if i < 30 then [.dir "d" (i + 1)] else []⟩

/-- C9: the walk terminates on every input (it is a total function — the
recursion is bounded by the depth budget); it errors when a directory's
resolved real path is revisited (cycle detected); it errors when recursion
depth exceeds the fixed maximum of 16; on the concrete cyclic tree it
reports the cycle, and on the concrete 30-deep chain it reports the depth
overflow — it neither loops forever nor crashes on either. -/
theorem c9_walk_termination :
    (∀ (fsm : FsModel) (real : Nat) (visited : List Nat),
      walkDirInner fsm 0 real visited = .error (msgDepthExceeded real))
    ∧ (∀ (fsm : FsModel) (d real : Nat) (visited : List Nat),
        visited.contains real = true →
        walkDirInner fsm (d + 1) real visited = .error (msgCycleDetected real))
    ∧ walk_dir cycleFs 0 = .error (msgCycleDetected 0)
    ∧ walk_dir deepFs 0 = .error (msgDepthExceeded 17) := by
  refine ⟨fun _ _ _ => rfl, ?_, by decide, by decide⟩
  intro fsm d real visited h
  unfold walkDirInner
  rw [if_pos h]

theorem c9_walk_termination_witness :
    (([0, 5] : List Nat).contains 5 = true
      ∧ walkDirInner cycleFs 3 5 [0, 5] = .error (msgCycleDetected 5))
    ∧ walkDirInner cycleFs 0 7 [] = .error (msgDepthExceeded 7) :=
  ⟨⟨by decide, c9_walk_termination.2.1 cycleFs 2 5 [0, 5] (by decide)⟩,
    c9_walk_termination.1 cycleFs 7 []⟩

end SCQCS
